import Mathlib

/-!
Shallow embedding of the video-analytics pipeline core
(`video_analytics_pipeline`): the pydantic event model (`schemas/models.py`),
the quality validator and monitor (`utils/data_quality.py`) and the Beam
per-event transforms (`beam/transforms.py`).

Numeric modelling: Python floats are modelled as `ℚ` (all constants of the
source are decimal literals, and no claim depends on binary rounding).
Python `datetime` objects are modelled by `PyDatetime` below: civil fields
plus an optional UTC-offset (a naive datetime has `tzMinutes = none`);
`datetime.utcnow()` is passed in explicitly as a parameter wherever the
source calls it.  Sub-second precision is not modelled (no claim uses it).
-/

namespace VAP

/-- Python `datetime.datetime`: civil fields and, for timezone-aware values,
the UTC offset in minutes (`tzinfo`); `tzMinutes = none` models a naive
datetime such as the result of `datetime.utcnow()`. -/
structure PyDatetime where
  year : Nat
  month : Nat
  day : Nat
  hour : Nat
  minute : Nat
  second : Nat
  tzMinutes : Option Int
deriving Repr, DecidableEq

/-- Days from 1970-01-01 for a civil date (Howard Hinnant's algorithm, the
standard civil-from-days inverse used to give Python datetimes a linear
timeline).  Only evaluated on calendar-valid dates, which is all a Python
`datetime` can hold. -/
def daysFromCivil (y m d : Int) : Int :=
  let y1 : Int := if m ≤ 2 then y - 1 else y
  let era : Int := (if 0 ≤ y1 then y1 else y1 - 399) / 400
  let yoe : Int := y1 - era * 400
  let mp : Int := if 2 < m then m - 3 else m + 9
  let doy : Int := (153 * mp + 2) / 5 + d - 1
  let doe : Int := yoe * 365 + yoe / 4 - yoe / 100 + doy
  era * 146097 + doe - 719468

/-- Wall-clock seconds of a `PyDatetime` (ignoring its offset).  Python
compares naive datetimes lexicographically on their fields, which on
calendar-valid dates agrees with comparing these wall-clock seconds. -/
def wallSec (t : PyDatetime) : Int :=
  86400 * daysFromCivil t.year t.month t.day
    + 3600 * (t.hour : Int) + 60 * (t.minute : Int) + (t.second : Int)

/-- Python datetime subtraction/comparison, in seconds (`a - b`).  Mixing a
naive and an aware datetime raises `TypeError`, which every comparison in
the source hits through `<`/`>`; we carry Python's comparison message. -/
def pyDiffSec (a b : PyDatetime) : Except String Int :=
  match a.tzMinutes, b.tzMinutes with
  | none, none => .ok (wallSec a - wallSec b)
  | some x, some y => .ok ((wallSec a - 60 * x) - (wallSec b - 60 * y))
  | _, _ => .error "can\x27t compare offset-naive and offset-aware datetimes"

/-- `schemas/models.py`: `EventType` (`use_enum_values = True`, so events
carry the string value; we keep the enum and render it when needed). -/
inductive EventType where
  | motion_detected
  | person_detected
  | vehicle_detected
  | anomaly_detected
  | performance_metric
  | system_event
deriving Repr, DecidableEq, BEq

/-- The string value of an `EventType` (pydantic `use_enum_values`). -/
def EventType.value : EventType → String
  | .motion_detected => "motion_detected"
  | .person_detected => "person_detected"
  | .vehicle_detected => "vehicle_detected"
  | .anomaly_detected => "anomaly_detected"
  | .performance_metric => "performance_metric"
  | .system_event => "system_event"

/-- `schemas/models.py`: `Location`. -/
structure Location where
  latitude : Option ℚ
  longitude : Option ℚ
  address : Option String
deriving Repr, DecidableEq

/-- `schemas/models.py`: `VideoSource`. -/
structure VideoSource where
  source_id : String
  camera_id : String
  location : Option Location
deriving Repr, DecidableEq

/-- `schemas/models.py`: `BoundingBox` (pydantic enforces `x,y ≥ 0`,
`width,height > 0` at construction; the structure itself does not, matching
the validator's defense-in-depth re-checks). -/
structure BoundingBox where
  x : ℚ
  y : ℚ
  width : ℚ
  height : ℚ
deriving Repr, DecidableEq

/-- `schemas/models.py`: `EventData`.  `attributes: Dict[str, Any]` only
ever receives booleans in this codebase (enrichment), so it is modelled as
a string-to-bool insertion-ordered dict. -/
structure EventData where
  confidence : Option ℚ
  bounding_box : Option BoundingBox
  metrics : Option (List (String × ℚ))
  attributes : Option (List (String × Bool))
deriving Repr, DecidableEq

/-- `schemas/models.py`: `ProcessingMetadata`. -/
structure ProcessingMetadata where
  pipeline_version : Option String
  processing_time : Option PyDatetime
  model_version : Option String
deriving Repr, DecidableEq

/-- `schemas/models.py`: `VideoAnalyticsEvent`. -/
structure VideoAnalyticsEvent where
  event_id : String
  timestamp : PyDatetime
  video_source : VideoSource
  event_type : EventType
  data : EventData
  processing_metadata : Option ProcessingMetadata
deriving Repr, DecidableEq

/-- `utils/data_quality.py`: `ValidationResult`. -/
structure ValidationResult where
  is_valid : Bool
  errors : List String
  warnings : List String
  score : ℚ
deriving Repr, DecidableEq

/-- One rule's returned dict `{"errors", "warnings", "severity"}`. -/
structure RuleResult where
  errors : List String
  warnings : List String
  severity : ℚ
deriving Repr, DecidableEq

/-- Assembles a rule's returned dict with its fixed severity. -/
def ruleWith (sev : ℚ) (ew : List String × List String) : RuleResult :=
  ⟨ew.1, ew.2, sev⟩

/-- `DataQualityChecker._validate_timestamp` body: the two wall-clock checks
and the processing-time check, each comparison able to raise `TypeError`
when the operands mix naive and aware datetimes; a raise is caught by the
rule's own `except`, which keeps whatever was already appended. -/
def validate_timestamp_body (e : VideoAnalyticsEvent) (now : PyDatetime) :
    List String × List String :=
  match pyDiffSec e.timestamp now with
  | .error m => (["Timestamp validation error: " ++ m], [])
  | .ok d =>
    let errs := if 300 < d then ["Timestamp is too far in the future"] else []
    let warns :=
      if d < -604800 then ["Timestamp is quite old (more than 7 days)"] else []
    match e.processing_metadata with
    | none => (errs, warns)
    | some pm =>
      match pm.processing_time with
      | none => (errs, warns)
      | some pt =>
        match pyDiffSec pt e.timestamp with
        | .error m => (errs ++ ["Timestamp validation error: " ++ m], warns)
        | .ok d2 =>
          (errs,
           warns ++
             (if d2 < 0 then ["Processing time is before event timestamp"] else []))

/-- `DataQualityChecker._validate_timestamp` (severity 0.8). -/
def validate_timestamp (e : VideoAnalyticsEvent) (now : PyDatetime) : RuleResult :=
  ruleWith (4/5) (validate_timestamp_body e now)

/-- `DataQualityChecker._validate_confidence` body.  The out-of-range error
message interpolates the float value in the source; the rendering is
abbreviated here, no claim depends on it. -/
def validate_confidence_body (e : VideoAnalyticsEvent) : List String × List String :=
  match e.data.confidence with
  | none => ([], [])
  | some c =>
    let errs :=
      if ¬(0 ≤ c ∧ c ≤ 1) then ["Confidence score is out of range [0,1]"] else []
    let warns :=
      if (e.event_type = .person_detected ∨ e.event_type = .vehicle_detected) ∧ c < 3/10
      then ["Very low confidence for detection event"] else []
    (errs, warns)

/-- `DataQualityChecker._validate_confidence` (severity 0.5). -/
def validate_confidence (e : VideoAnalyticsEvent) : RuleResult :=
  ruleWith (1/2) (validate_confidence_body e)

/-- `DataQualityChecker._validate_bounding_box` body. -/
def validate_bounding_box_body (e : VideoAnalyticsEvent) : List String × List String :=
  match e.data.bounding_box with
  | none => ([], [])
  | some bbox =>
    let errs :=
      (if bbox.x < 0 ∨ bbox.y < 0 then ["Bounding box has negative coordinates"] else [])
        ++ (if bbox.width ≤ 0 ∨ bbox.height ≤ 0
            then ["Bounding box has invalid dimensions"] else [])
    let warns :=
      (if bbox.width < 10 ∨ bbox.height < 10 then ["Bounding box is very small"] else [])
        ++ (if bbox.width > 3840 ∨ bbox.height > 2160
            then ["Bounding box dimensions exceed typical video resolution"] else [])
    (errs, warns)

/-- `DataQualityChecker._validate_bounding_box` (severity 0.6). -/
def validate_bounding_box (e : VideoAnalyticsEvent) : RuleResult :=
  ruleWith (3/5) (validate_bounding_box_body e)

/-- `DataQualityChecker._validate_event_consistency` body. -/
def validate_event_consistency_body (e : VideoAnalyticsEvent) :
    List String × List String :=
  let warns :=
    (if (e.event_type = .person_detected ∨ e.event_type = .vehicle_detected ∨
          e.event_type = .motion_detected) ∧ e.data.confidence = none
     then ["Detection event \x27" ++ e.event_type.value ++ "\x27 missing confidence score"]
     else [])
      ++ (if (e.event_type = .person_detected ∨ e.event_type = .vehicle_detected) ∧
              e.data.bounding_box = none
          then ["Visual detection event \x27" ++ e.event_type.value ++
                  "\x27 missing bounding box"]
          else [])
  let errs :=
    if e.event_type = .performance_metric ∧
        (match e.data.metrics with | none => true | some l => l.isEmpty) = true
    then ["Performance metric event missing metrics data"] else []
  (errs, warns)

/-- `DataQualityChecker._validate_event_consistency` (severity 0.7). -/
def validate_event_consistency (e : VideoAnalyticsEvent) : RuleResult :=
  ruleWith (7/10) (validate_event_consistency_body e)

/-- Python `str.strip()`: remove leading and trailing whitespace. -/
def py_strip (s : String) : String :=
  ⟨((s.data.dropWhile Char.isWhitespace).reverse.dropWhile Char.isWhitespace).reverse⟩

/-- `DataQualityChecker._validate_source_integrity` body (`strip` is
Python whitespace-stripping). -/
def validate_source_integrity_body (e : VideoAnalyticsEvent) :
    List String × List String :=
  let errs :=
    (if py_strip e.video_source.source_id = "" then ["Empty video source ID"] else [])
      ++ (if py_strip e.video_source.camera_id = "" then ["Empty camera ID"] else [])
      ++ (match e.video_source.location with
          | none => []
          | some loc =>
            (match loc.latitude with
             | none => []
             | some la => if ¬(-90 ≤ la ∧ la ≤ 90) then ["Invalid latitude value"] else [])
              ++ (match loc.longitude with
                  | none => []
                  | some lo =>
                    if ¬(-180 ≤ lo ∧ lo ≤ 180) then ["Invalid longitude value"] else []))
  (errs, [])

/-- `DataQualityChecker._validate_source_integrity` (severity 0.4). -/
def validate_source_integrity (e : VideoAnalyticsEvent) : RuleResult :=
  ruleWith (2/5) (validate_source_integrity_body e)

/-!
`DataQualityChecker.validate_event` runs `jsonschema.validate` on
`event.dict()` against `_load_json_schema()`.  Pydantic's `.dict()`
(`model_dump` in python mode) leaves `timestamp` as a `datetime` object,
and the schema requires `"timestamp": {"type": "string", ...}`, so the
type check fails on every instance: `validate` always raises.  The raised
exception carries jsonschema's best-match message; we model the individual
violation messages abbreviated (jsonschema interpolates `repr`s of the
offending values) and the best match as the first violation in the
schema's property order — for an event with no other violation this is
exactly the timestamp type error, and no claim depends on the choice when
several violations coexist.  `"format": "date-time"` is not enforced by
`jsonschema.validate` without a format checker, and the `required`,
`enum` and object-type clauses cannot fail on a constructed pydantic
event, so the remaining reachable violations are the three `minLength`
checks.
-/

/-- The violations `jsonschema` finds in `event.dict()`; the timestamp type
violation is unconditional because `.dict()` leaves a `datetime` there. -/
def schema_violations (e : VideoAnalyticsEvent) : List String :=
  (if e.event_id.length = 0 then ["event_id is too short"] else [])
    ++ ["timestamp is not of type \x27string\x27"]
    ++ (if e.video_source.source_id.length = 0 then ["source_id is too short"] else [])
    ++ (if e.video_source.camera_id.length = 0 then ["camera_id is too short"] else [])

/-- The single error string appended when `jsonschema.validate` raises
(`f"Schema validation failed: {e.message}"`). -/
def schema_errors (e : VideoAnalyticsEvent) : List String :=
  ["Schema validation failed: " ++ (schema_violations e).headD ""]

/-- A registered validation rule: its name and its evaluation, which may
raise (`Except.error` models an uncaught exception escaping the rule
function, handled by `validate_event`'s per-rule `except`). -/
abbrev RuleFn := VideoAnalyticsEvent → PyDatetime → Except String RuleResult

/-- `DataQualityChecker._initialize_validation_rules()`: the ordered
name-to-callable dict.  The five concrete rules catch internally and never
let an exception escape, hence `.ok`. -/
def validation_rules : List (String × RuleFn) :=
  [("timestamp_validity", fun e now => .ok (validate_timestamp e now)),
   ("confidence_range", fun e _ => .ok (validate_confidence e)),
   ("bounding_box_validity", fun e _ => .ok (validate_bounding_box e)),
   ("event_consistency", fun e _ => .ok (validate_event_consistency e)),
   ("source_integrity", fun e _ => .ok (validate_source_integrity e))]

/-- One iteration of `validate_event`'s rule loop: on a normal return,
extend `errors`/`warnings` and charge `severity * 0.2` once when the rule
produced any error and `severity * 0.1` once when it produced any warning;
on an exception, append one error naming the rule and charge a flat 0.1. -/
def applyRule (e : VideoAnalyticsEvent) (now : PyDatetime)
    (acc : List String × List String × ℚ) (r : String × RuleFn) :
    List String × List String × ℚ :=
  let (errs, warns, score) := acc
  match r.2 e now with
  | .ok res =>
    let (errs1, score1) :=
      if res.errors.isEmpty then (errs, score)
      else (errs ++ res.errors, score - res.severity * (1/5))
    let (warns1, score2) :=
      if res.warnings.isEmpty then (warns, score1)
      else (warns ++ res.warnings, score1 - res.severity * (1/10))
    (errs1, warns1, score2)
  | .error m =>
    (errs ++ ["Validation rule \x27" ++ r.1 ++ "\x27 failed: " ++ m], warns,
     score - 1/10)

/-- The rule loop of `validate_event` over a rule list. -/
def runRules (rules : List (String × RuleFn)) (e : VideoAnalyticsEvent)
    (now : PyDatetime) (acc : List String × List String × ℚ) :
    List String × List String × ℚ :=
  rules.foldl (applyRule e now) acc

/-- The accumulated `errors`, `warnings` and (unclamped) `quality_score`
after the schema check and the rule loop of `validate_event`. -/
def validationParts (rules : List (String × RuleFn)) (e : VideoAnalyticsEvent)
    (now : PyDatetime) : List String × List String × ℚ :=
  let se := schema_errors e
  runRules rules e now (se, [], if se.isEmpty then 1 else 1 - 3/10)

/-- `DataQualityChecker.validate_event`, parameterised by the outcome of
the code that runs before the rule loop inside the outer `try` (the
`event.dict()` conversion; `.error` models an unexpected exception there,
handled by the outer `except`) and by the registered rule list. -/
def validate_event_with (pre : Except String Unit)
    (rules : List (String × RuleFn)) (e : VideoAnalyticsEvent)
    (now : PyDatetime) : ValidationResult :=
  match pre with
  | .error m => ⟨false, ["Unexpected validation error: " ++ m], [], 0⟩
  | .ok _ =>
    let (errs, warns, score) := validationParts rules e now
    ⟨errs.isEmpty, errs, warns, max 0 score⟩

/-- `DataQualityChecker.validate_event` as wired in the source: the real
rule dict, no pre-loop exception. -/
def validate_event (e : VideoAnalyticsEvent) (now : PyDatetime) : ValidationResult :=
  validate_event_with (.ok ()) validation_rules e now

/-- The score charge of one rule result in the loop of `validate_event`. -/
def penalty (r : RuleResult) : ℚ :=
  (if r.errors.isEmpty then 0 else r.severity * (1/5))
    + (if r.warnings.isEmpty then 0 else r.severity * (1/10))

/-!
`beam/transforms.py`.  Each `DoFn.process` is modelled as a function from
its input to the list of yielded elements together with the list of
counter names it increments (in order).
-/

/-- The metadata-stamping block of `ParseVideoEvent.process`.  When
`processing_metadata` is `None` the source assigns a plain dict
(`event.processing_metadata = {}`; pydantic does not validate assignment
by default, so the field now holds a `dict`), and the next line
`event.processing_metadata.processing_time = ...` raises `AttributeError`
on that dict — modelled as `.error` with Python's message. -/
def stamp_metadata (e : VideoAnalyticsEvent) (now : PyDatetime) :
    Except String VideoAnalyticsEvent :=
  match e.processing_metadata with
  | none => .error "\x27dict\x27 object has no attribute \x27processing_time\x27"
  | some pm =>
    .ok { e with
          processing_metadata :=
            some { pm with processing_time := some now,
                           pipeline_version := some "1.0.0" } }

/-- Outcome of `json.loads` plus `VideoAnalyticsEvent(**event_data)` on the
raw bytes: JSON decoding failed, pydantic construction failed, or an event
was constructed. -/
inductive ParseOutcome where
  | jsonDecodeError
  | validationError
  | ok (e : VideoAnalyticsEvent)

/-- `ParseVideoEvent.process`: gate on `validate_event`, stamp metadata and
count on success; drop and count otherwise.  An `AttributeError` from
`stamp_metadata` is caught by the final generic `except`, which increments
`events_processing_error` and yields nothing. -/
def parse_process (o : ParseOutcome) (now : PyDatetime) :
    List VideoAnalyticsEvent × List String :=
  match o with
  | .jsonDecodeError => ([], ["events_parse_failed"])
  | .validationError => ([], ["events_validation_failed"])
  | .ok e =>
    let quality := validate_event e now
    if quality.is_valid then
      match stamp_metadata e now with
      | .ok stamped => ([stamped], ["events_processed_success"])
      | .error _ => ([], ["events_processing_error"])
    else ([], ["events_data_quality_failed"])

/-- Python dict update `d[k] = v` on an insertion-ordered string dict. -/
def dictSet (l : List (String × Bool)) (k : String) (v : Bool) :
    List (String × Bool) :=
  match l with
  | [] => [(k, v)]
  | (a, b) :: r => if a = k then (a, v) :: r else (a, b) :: dictSet r k v

/-- `if not event.data.attributes: event.data.attributes = {}` followed by
`event.data.attributes[k] = v`: `None` and the empty dict are both falsy
and replaced by a fresh dict, so the base is the existing entries. -/
def set_attribute (attrs : Option (List (String × Bool))) (k : String) (v : Bool) :
    Option (List (String × Bool)) :=
  some (dictSet (attrs.getD []) k v)

/-- The body of `EnrichEvent.process`: mark `high_confidence` on detection
events whose confidence is truthy (non-`None`, non-zero) and `> 0.9`, and
`has_location` when the source has a location. -/
def enrich_event (e : VideoAnalyticsEvent) : VideoAnalyticsEvent :=
  let hiconf : Bool :=
    match e.data.confidence with
    | some c =>
      decide ((e.event_type = .person_detected ∨ e.event_type = .vehicle_detected)
        ∧ c ≠ 0 ∧ (9:ℚ)/10 < c)
    | none => false
  let e1 :=
    if hiconf then
      { e with data :=
          { e.data with attributes := set_attribute e.data.attributes "high_confidence" true } }
    else e
  if e1.video_source.location.isSome then
    { e1 with data :=
        { e1.data with attributes := set_attribute e1.data.attributes "has_location" true } }
  else e1

/-- `EnrichEvent.process`, parameterised by the enrichment body so that the
claim about a raising enrichment is statable (`.error` models an exception
inside the `try`, reached before the `yield`): on success the enriched
event is yielded with the success counter; on failure the stage logs,
increments the failure counter and still yields the event. -/
def enrich_process (enrich : VideoAnalyticsEvent → Except String VideoAnalyticsEvent)
    (e : VideoAnalyticsEvent) : List VideoAnalyticsEvent × List String :=
  match enrich e with
  | .ok enriched => ([enriched], ["events_enriched"])
  | .error _ => ([e], ["events_enrichment_failed"])

/-- The dict yielded by `FilterAnomalies.process`. -/
structure FilterOutput where
  event : VideoAnalyticsEvent
  is_anomaly : Bool
  processing_priority : String
  processed_at : PyDatetime
deriving Repr, DecidableEq

/-- `FilterAnomalies.process` with its configured `confidence_threshold`:
`is_anomaly` is true for `anomaly_detected`, else when the confidence is
truthy, exceeds the threshold and the type is `person_detected` or
`vehicle_detected`. -/
def filter_process (threshold : ℚ) (e : VideoAnalyticsEvent) (now : PyDatetime) :
    List FilterOutput × List String :=
  let anom : Bool :=
    if e.event_type = .anomaly_detected then true
    else
      match e.data.confidence with
      | some c =>
        decide (c ≠ 0 ∧ threshold < c ∧
          (e.event_type = .person_detected ∨ e.event_type = .vehicle_detected))
      | none => false
  ([⟨e, anom, if anom then "high" else "normal", now⟩],
   (if anom then ["anomalies_detected"] else []) ++ ["events_filtered"])

/-- Python dict counter bump `d[k] = d.get(k, 0) + 1` on an
insertion-ordered dict (first occurrence updated in place, new keys
appended). -/
def bump_assoc {α : Type} [DecidableEq α] (l : List (α × Nat)) (k : α) : List (α × Nat) :=
  match l with
  | [] => [(k, 1)]
  | (a, n) :: r => if a = k then (a, n + 1) :: r else (a, n) :: bump_assoc r k

/-- First-match lookup with default 0 on an insertion-ordered counter dict. -/
def lookup_count {α : Type} [DecidableEq α] (l : List (α × Nat)) (k : α) : Nat :=
  match l with
  | [] => 0
  | (a, n) :: r => if a = k then n else lookup_count r k

/-- The aggregate dict yielded by `WindowedAggregation.process`
(`window_start`/`window_end`/`aggregated_at` are rendered to ISO strings in
the source; the instants are kept as epoch seconds here). -/
structure WindowAggregate where
  window_start : ℚ
  window_end : ℚ
  source_id : String
  total_events : Nat
  event_type_counts : List (EventType × Nat)
  average_confidence : ℚ
  high_confidence_events : Nat
  aggregated_at : ℚ
deriving Repr, DecidableEq

/-- The accumulation loop of `WindowedAggregation.process`: per-type counts
and the collected confidence list (`if event_dict["event"]["data"].get("confidence")`
is a truthiness test, so absent and zero confidences are skipped). -/
def agg_step (acc : List (EventType × Nat) × List ℚ) (ev : FilterOutput) :
    List (EventType × Nat) × List ℚ :=
  (bump_assoc acc.1 ev.event.event_type,
   match ev.event.data.confidence with
   | some c => if c = 0 then acc.2 else acc.2 ++ [c]
   | none => acc.2)

def agg_loop (events : List FilterOutput) :
    List (EventType × Nat) × List ℚ :=
  events.foldl agg_step ([], [])

/-- `WindowedAggregation.process` on one `(key, events)` group of a closed
window. -/
def windowed_aggregation (key : String) (events : List FilterOutput)
    (wstart wend now : ℚ) : List WindowAggregate × List String :=
  let (types, confs) := agg_loop events
  let avg : ℚ := if confs.isEmpty then 0 else confs.sum / (confs.length : ℚ)
  ([⟨wstart, wend, key, events.length, types, avg,
     (confs.filter (fun c => decide ((9:ℚ)/10 < c))).length, now⟩],
   ["windows_aggregated"])

/-!
`utils/data_quality.py`: `DataQualityMonitor`.  Record timestamps are the
`datetime.utcnow()` instants at recording time, modelled as epoch seconds
(`ℚ`); `utcnow` is passed explicitly.
-/

/-- One entry of `DataQualityMonitor.quality_history`. -/
structure QualityRecord where
  timestamp : ℚ
  event_id : String
  quality_score : ℚ
  is_valid : Bool
  error_count : Nat
  warning_count : Nat
deriving Repr, DecidableEq

/-- The mutable state of a `DataQualityMonitor`. -/
structure MonitorState where
  quality_history : List QualityRecord
  error_counts : List (String × Nat)
  warning_counts : List (String × Nat)
deriving Repr, DecidableEq

/-- `DataQualityMonitor.__init__`. -/
def emptyMonitor : MonitorState := ⟨[], [], []⟩

/-- `DataQualityMonitor.record_validation_result`. -/
def record_validation_result (st : MonitorState) (result : ValidationResult)
    (event_id : String) (now : ℚ) : MonitorState :=
  { quality_history :=
      st.quality_history ++
        [⟨now, event_id, result.score, result.is_valid,
          result.errors.length, result.warnings.length⟩],
    error_counts := result.errors.foldl bump_assoc st.error_counts,
    warning_counts := result.warnings.foldl bump_assoc st.warning_counts }

/-- A monitor after recording a sequence of `(result, event_id, utcnow)`
calls, oldest first. -/
def record_all (entries : List (ValidationResult × String × ℚ)) : MonitorState :=
  entries.foldl (fun st en => record_validation_result st en.1 en.2.1 en.2.2)
    emptyMonitor

/-- The dict returned by `DataQualityMonitor.get_quality_metrics` when
recent records exist. -/
structure QualityMetrics where
  window_minutes : Nat
  total_events : Nat
  valid_events : Nat
  validity_rate : ℚ
  average_quality_score : ℚ
  total_errors : Nat
  total_warnings : Nat
  top_errors : List (String × Nat)
  top_warnings : List (String × Nat)
deriving Repr, DecidableEq

/-- Stable insertion into a descending-count list: placed before the first
strictly smaller count, i.e. after every earlier item of equal count. -/
def insert_desc (x : String × Nat) : List (String × Nat) → List (String × Nat)
  | [] => [x]
  | y :: ys => if y.2 < x.2 then x :: y :: ys else y :: insert_desc x ys

/-- Python `sorted(items, key=count, reverse=True)`: stable descending sort
(equal counts keep first-seen dict order). -/
def sort_desc (l : List (String × Nat)) : List (String × Nat) :=
  l.foldl (fun acc x => insert_desc x acc) []

/-- `DataQualityMonitor.get_quality_metrics`: windowed stats over
`quality_history` filtered to `timestamp > utcnow - window_minutes`, and
top-5 lists taken from the cumulative `error_counts`/`warning_counts`
dicts; `none` models the `{"no_data": True}` early return. -/
def get_quality_metrics (st : MonitorState) (window_minutes : Nat) (now : ℚ) :
    Option QualityMetrics :=
  let cutoff : ℚ := now - (window_minutes : ℚ) * 60
  let recent := st.quality_history.filter (fun r => decide (cutoff < r.timestamp))
  if recent.isEmpty then none
  else
    some
      { window_minutes := window_minutes,
        total_events := recent.length,
        valid_events := (recent.filter (fun r => r.is_valid)).length,
        validity_rate :=
          ((recent.filter (fun r => r.is_valid)).length : ℚ) / (recent.length : ℚ),
        average_quality_score :=
          (recent.map (fun r => r.quality_score)).sum / (recent.length : ℚ),
        total_errors := (recent.map (fun r => r.error_count)).sum,
        total_warnings := (recent.map (fun r => r.warning_count)).sum,
        top_errors := (sort_desc st.error_counts).take 5,
        top_warnings := (sort_desc st.warning_counts).take 5 }

/-!
`schemas/models.py`: the `parse_timestamp` pre-validator,
`datetime.fromisoformat(v.replace("Z", "+00:00"))` with a fallback to
`datetime.fromisoformat(v)` on `ValueError`.  `fromisoformat` (the
pre-3.11 grammar the `replace` targets) is modelled on the forms the
pipeline exchanges: `YYYY-MM-DD`, optionally followed by any single
separator character and `HH:MM[:SS]`, optionally followed by a `±HH:MM`
offset; fractional seconds and the bare-`HH` time form are not modelled
(no spec claim exercises them).  Calendar and clock fields are
range-checked as the `datetime` constructor does.  `none` models
`ValueError`; pydantic turns an uncaught `ValueError` in the validator
into a `ValidationError`, i.e. construction failure.
-/

/-- One ASCII digit. -/
def readDigit : List Char → Option (Nat × List Char)
  | [] => none
  | c :: r => if c.isDigit then some (c.toNat - 48, r) else none

/-- A required literal character. -/
def expectChar (ch : Char) : List Char → Option (Unit × List Char)
  | [] => none
  | c :: r => if c = ch then some ((), r) else none

/-- Parser sequencing. -/
def pseq {α β : Type} (p : List Char → Option (α × List Char))
    (q : α → List Char → Option (β × List Char)) :
    List Char → Option (β × List Char) :=
  fun l =>
    match p l with
    | none => none
    | some (a, r) => q a r

/-- A parser consuming nothing. -/
def preturn {α : Type} (a : α) : List Char → Option (α × List Char) :=
  fun l => some (a, l)

/-- A non-consuming validity check (`ValueError` on failure). -/
def pguard (b : Bool) : List Char → Option (Unit × List Char) :=
  fun l => if b then some ((), l) else none

/-- Two digits. -/
def read2 : List Char → Option (Nat × List Char) :=
  pseq readDigit fun a => pseq readDigit fun b => preturn (10 * a + b)

/-- Four digits. -/
def read4 : List Char → Option (Nat × List Char) :=
  pseq read2 fun a => pseq read2 fun b => preturn (100 * a + b)

/-- Gregorian leap year. -/
def isLeap (y : Nat) : Bool :=
  y % 4 == 0 && (y % 100 != 0 || y % 400 == 0)

/-- Days in a month, as `datetime` validates them. -/
def daysInMonth (y m : Nat) : Nat :=
  if m == 2 then (if isLeap y then 29 else 28)
  else if m == 4 || m == 6 || m == 9 || m == 11 then 30
  else 31

/-- `YYYY-MM-DD` with the `datetime` constructor's range checks. -/
def readDate : List Char → Option ((Nat × Nat × Nat) × List Char) :=
  pseq read4 fun y =>
    pseq (expectChar '-') fun _ =>
      pseq read2 fun mo =>
        pseq (expectChar '-') fun _ =>
          pseq read2 fun dy =>
            pseq (pguard (decide (1 ≤ y) && decide (1 ≤ mo) && decide (mo ≤ 12)
                    && decide (1 ≤ dy) && decide (dy ≤ daysInMonth y mo))) fun _ =>
              preturn (y, mo, dy)

/-- Optional `:SS` after `HH:MM` (absent when the next character is not a
colon, e.g. at the end or before an offset sign). -/
def readSecondsOpt (l : List Char) : Option (Nat × List Char) :=
  match l with
  | [] => some (0, [])
  | c :: r => if c = ':' then read2 r else some (0, c :: r)

/-- `HH:MM[:SS]` with the `time` constructor's range checks. -/
def readTime : List Char → Option ((Nat × Nat × Nat) × List Char) :=
  pseq read2 fun h =>
    pseq (expectChar ':') fun _ =>
      pseq read2 fun mi =>
        pseq readSecondsOpt fun s =>
          pseq (pguard (decide (h ≤ 23) && decide (mi ≤ 59) && decide (s ≤ 59))) fun _ =>
            preturn (h, mi, s)

/-- The `HH:MM` tail of a signed UTC offset, in minutes. -/
def readOffsetTail (sign : Int) : List Char → Option (Option Int × List Char) :=
  pseq read2 fun oh =>
    pseq (expectChar ':') fun _ =>
      pseq read2 fun om =>
        pseq (pguard (decide (oh ≤ 23) && decide (om ≤ 59))) fun _ =>
          preturn (some (sign * ((oh : Int) * 60 + om)))

/-- Optional trailing UTC offset `±HH:MM`, in minutes. -/
def readTzOpt (l : List Char) : Option (Option Int × List Char) :=
  match l with
  | [] => some (none, [])
  | c :: r =>
    if c = '+' then readOffsetTail 1 r
    else if c = '-' then readOffsetTail (-1) r
    else some (none, c :: r)

/-- `datetime.fromisoformat` on the modelled grammar: a date alone is
midnight naive; otherwise one separator character (any character, as in
the pre-3.11 parser), a time, and an optional offset, with nothing left
over. -/
def fromisoformat (l : List Char) : Option PyDatetime :=
  match readDate l with
  | none => none
  | some ((y, mo, dy), rest) =>
    match rest with
    | [] => some ⟨y, mo, dy, 0, 0, 0, none⟩
    | _sep :: tr =>
      match readTime tr with
      | none => none
      | some ((h, mi, s), r2) =>
        match readTzOpt r2 with
        | none => none
        | some (tz, r3) =>
          if r3.isEmpty then some ⟨y, mo, dy, h, mi, s, tz⟩ else none

/-- `v.replace("Z", "+00:00")`: every `Z` becomes `+00:00`. -/
def replaceZ : List Char → List Char
  | [] => []
  | c :: r =>
    if c = 'Z' then '+' :: '0' :: '0' :: ':' :: '0' :: '0' :: replaceZ r
    else c :: replaceZ r

/-- `VideoAnalyticsEvent.parse_timestamp` on a string input: try the
`Z`-replaced form, fall back to the raw form; `none` means the
`ValueError` escapes and pydantic fails construction with a
`ValidationError`. -/
def parse_timestamp (s : String) : Option PyDatetime :=
  match fromisoformat (replaceZ s.data) with
  | some t => some t
  | none => fromisoformat s.data

/-!
Concrete sample inputs used by counterexamples and witnesses.
-/

/-- A validation wall-clock instant (naive, like `datetime.utcnow()`). -/
def now0 : PyDatetime := ⟨2023, 12, 1, 10, 30, 0, none⟩

/-- A well-formed event with no semantic-rule issues: fresh timestamp,
non-empty ids, in-range confidence, no detection-type obligations. -/
def cleanEvent : VideoAnalyticsEvent :=
  { event_id := "evt_001",
    timestamp := now0,
    video_source := ⟨"camera_001", "cam_123", none⟩,
    event_type := .system_event,
    data := ⟨some (19/20), none, none, none⟩,
    processing_metadata := none }

/-- `cleanEvent` with whitespace-only source and camera ids: both pass the
schema's `minLength: 1` but fail `source_integrity`'s `strip()` checks,
giving one rule two errors. -/
def twoErrEvent : VideoAnalyticsEvent :=
  { cleanEvent with video_source := ⟨" ", " ", none⟩ }

/-- A `motion_detected` event with confidence 0.96. -/
def motionHiEvent : VideoAnalyticsEvent :=
  { cleanEvent with event_type := .motion_detected,
                    data := ⟨some (24/25), none, none, none⟩ }

/-- A `person_detected` event with confidence 0.96. -/
def personHiEvent : VideoAnalyticsEvent :=
  { cleanEvent with event_type := .person_detected,
                    data := ⟨some (24/25), none, none, none⟩ }

/-- A `person_detected` event with confidence 0.80. -/
def personLoEvent : VideoAnalyticsEvent :=
  { cleanEvent with event_type := .person_detected,
                    data := ⟨some (4/5), none, none, none⟩ }

/-- A classified event wrapping `cleanEvent` with the given confidence, as
`WindowedAggregation` receives them from `FilterAnomalies`. -/
def mkClassified (c : Option ℚ) : FilterOutput :=
  ⟨{ cleanEvent with data := ⟨c, none, none, none⟩ }, false, "normal", now0⟩

/-- One window's events with confidences 0.0 and 1.0 (both present). -/
def eventsZeroOne : List FilterOutput :=
  [mkClassified (some 0), mkClassified (some 1)]

/-- The spec's aggregator example: confidences 0.8 and 1.0 for one source. -/
def eventsGood : List FilterOutput :=
  [mkClassified (some (4/5)), mkClassified (some 1)]

/-- A validation result carrying the single error "E1". -/
def resE1 : ValidationResult := ⟨false, ["E1"], [], 0⟩

/-- A validation result carrying the single error "E2". -/
def resE2 : ValidationResult := ⟨false, ["E2"], [], 1/2⟩

/-- A monitor that recorded "E1" at t = 0 s and "E2" at t = 3600 s. -/
def monitorTwo : MonitorState :=
  record_all [(resE1, "a", 0), (resE2, "b", 3600)]

/-- The recorded entries whose timestamps fall in the trailing
`wm`-minute window at `now`. -/
def recent_entries (entries : List (ValidationResult × String × ℚ))
    (wm : Nat) (now : ℚ) : List (ValidationResult × String × ℚ) :=
  entries.filter (fun en => decide (now - (wm:ℚ) * 60 < en.2.2))

/-!
Definitions formalising claim wordings, for comparison with the code
(each is written from the spec or claim text, not from the source).
-/

/-- The score claimed by the spec sentence behind C2, following its words:
1.0 minus `severity * 0.2` for each error and `severity * 0.1` for each
warning produced by the five semantic rules, clamped to at least 0.  Kept
for comparison with the implemented scoring. -/
def claimed_score (e : VideoAnalyticsEvent) (now : PyDatetime) : ℚ :=
  let chargeOf : RuleResult → ℚ := fun r =>
    r.severity * (1/5) * r.errors.length + r.severity * (1/10) * r.warnings.length
  max 0 (1 - chargeOf (validate_timestamp e now) - chargeOf (validate_confidence e)
    - chargeOf (validate_bounding_box e) - chargeOf (validate_event_consistency e)
    - chargeOf (validate_source_integrity e))

/-- The anomaly predicate claimed by C4, following its words: detection
family includes `motion_detected`. -/
def claimed_is_anomaly (threshold : ℚ) (e : VideoAnalyticsEvent) : Bool :=
  decide (e.event_type = .anomaly_detected ∨
    ((match e.data.confidence with
      | some c => decide (threshold < c)
      | none => false) = true ∧
     (e.event_type = .motion_detected ∨ e.event_type = .person_detected ∨
       e.event_type = .vehicle_detected)))

/-- The confidence values the aggregation loop actually collects: present
and truthy (non-zero). -/
def collected_confidences (events : List FilterOutput) : List ℚ :=
  events.filterMap (fun ev =>
    match ev.event.data.confidence with
    | some c => if c = 0 then none else some c
    | none => none)

/-- The confidence values present on the window's events, as worded in C3
(no truthiness filter). -/
def present_confidences (events : List FilterOutput) : List ℚ :=
  events.filterMap (fun ev => ev.event.data.confidence)

/-- The history record `record_validation_result` appends for one call. -/
def mkRecord (en : ValidationResult × String × ℚ) : QualityRecord :=
  ⟨en.2.2, en.2.1, en.1.score, en.1.is_valid, en.1.errors.length,
   en.1.warnings.length⟩

/-- Extension property of a character parser: a successful parse is stable
under appending input, which then survives in the remainder. -/
def ExtP {α : Type} (p : List Char → Option (α × List Char)) : Prop :=
  ∀ l a r, p l = some (a, r) → ∀ ext, p (l ++ ext) = some (a, r ++ ext)

/-- A parser that consumes exactly `n` characters on success. -/
def LenP {α : Type} (p : List Char → Option (α × List Char)) (n : Nat) : Prop :=
  ∀ l a r, p l = some (a, r) → l.length = n + r.length

instance : LawfulBEq EventType where
  eq_of_beq {a b} := by cases a <;> cases b <;> decide
  rfl {a} := by cases a <;> decide

/-!
Closed-form characterisation of `validate_event`, shared by several of the
claim theorems below.
-/

/-- One loop iteration on a rule that returns normally appends its errors
and warnings and charges `penalty`. -/
theorem applyRule_ok (e : VideoAnalyticsEvent) (now : PyDatetime)
    (E W : List String) (S : ℚ) (name : String) (f : RuleFn) (r : RuleResult)
    (h : f e now = .ok r) :
    applyRule e now (E, W, S) (name, f) =
      (E ++ r.errors, W ++ r.warnings, S - penalty r) := by
  simp only [applyRule, h]
  by_cases he : r.errors.isEmpty <;> by_cases hw : r.warnings.isEmpty <;>
    simp only [he, hw, if_true, if_false, penalty, ite_true, ite_false] <;>
    simp_all [List.isEmpty_iff] <;> ring_nf

/-- The severity of each concrete rule is its fixed constant. -/
theorem severity_fixed (e : VideoAnalyticsEvent) (now : PyDatetime) :
    (validate_timestamp e now).severity = 4/5 ∧
    (validate_confidence e).severity = 1/2 ∧
    (validate_bounding_box e).severity = 3/5 ∧
    (validate_event_consistency e).severity = 7/10 ∧
    (validate_source_integrity e).severity = 2/5 :=
  ⟨rfl, rfl, rfl, rfl, rfl⟩

/-- `penalty` never increases the score for a nonnegative severity. -/
theorem penalty_nonneg (r : RuleResult) (h : 0 ≤ r.severity) : 0 ≤ penalty r := by
  unfold penalty
  split_ifs <;> positivity

/-- Closed form of the accumulated parts of `validate_event` on the real
rule list: the schema error is always present (the serialized timestamp is
a `datetime`, not a string), each rule appends in registration order, and
each rule charges its `penalty` off the post-schema base `0.7`. -/
theorem validationParts_eq (e : VideoAnalyticsEvent) (now : PyDatetime) :
    validationParts validation_rules e now =
      (schema_errors e ++ (validate_timestamp e now).errors
         ++ (validate_confidence e).errors ++ (validate_bounding_box e).errors
         ++ (validate_event_consistency e).errors
         ++ (validate_source_integrity e).errors,
       (validate_timestamp e now).warnings ++ (validate_confidence e).warnings
         ++ (validate_bounding_box e).warnings
         ++ (validate_event_consistency e).warnings
         ++ (validate_source_integrity e).warnings,
       1 - 3/10 - penalty (validate_timestamp e now)
         - penalty (validate_confidence e) - penalty (validate_bounding_box e)
         - penalty (validate_event_consistency e)
         - penalty (validate_source_integrity e)) := by
  have hbase : (schema_errors e).isEmpty = false := rfl
  simp only [validationParts, runRules, validation_rules, List.foldl, hbase,
    Bool.false_eq_true, if_false]
  rw [applyRule_ok e now _ _ _ _ _ _ rfl, applyRule_ok e now _ _ _ _ _ _ rfl,
    applyRule_ok e now _ _ _ _ _ _ rfl, applyRule_ok e now _ _ _ _ _ _ rfl,
    applyRule_ok e now _ _ _ _ _ _ rfl]
  simp only [List.append_assoc, List.nil_append]

/-- `validate_event`, assembled from `validationParts_eq`. -/
theorem validate_event_eq (e : VideoAnalyticsEvent) (now : PyDatetime) :
    validate_event e now =
      { is_valid :=
          (schema_errors e ++ (validate_timestamp e now).errors
            ++ (validate_confidence e).errors ++ (validate_bounding_box e).errors
            ++ (validate_event_consistency e).errors
            ++ (validate_source_integrity e).errors).isEmpty,
        errors :=
          schema_errors e ++ (validate_timestamp e now).errors
            ++ (validate_confidence e).errors ++ (validate_bounding_box e).errors
            ++ (validate_event_consistency e).errors
            ++ (validate_source_integrity e).errors,
        warnings :=
          (validate_timestamp e now).warnings ++ (validate_confidence e).warnings
            ++ (validate_bounding_box e).warnings
            ++ (validate_event_consistency e).warnings
            ++ (validate_source_integrity e).warnings,
        score :=
          max 0 (1 - 3/10 - penalty (validate_timestamp e now)
            - penalty (validate_confidence e) - penalty (validate_bounding_box e)
            - penalty (validate_event_consistency e)
            - penalty (validate_source_integrity e)) } := by
  simp only [validate_event, validate_event_with, validationParts_eq]

/-- The schema check fails on every event, so `is_valid` is always false. -/
theorem validate_event_never_valid (e : VideoAnalyticsEvent) (now : PyDatetime) :
    (validate_event e now).is_valid = false := by
  rw [validate_event_eq]
  simp [schema_errors]

/-- The five rule results on `cleanEvent` at `now0`: all clean. -/
theorem rules_on_cleanEvent :
    validate_timestamp cleanEvent now0 = ⟨[], [], 4/5⟩ ∧
    validate_confidence cleanEvent = ⟨[], [], 1/2⟩ ∧
    validate_bounding_box cleanEvent = ⟨[], [], 3/5⟩ ∧
    validate_event_consistency cleanEvent = ⟨[], [], 7/10⟩ ∧
    validate_source_integrity cleanEvent = ⟨[], [], 2/5⟩ := by
  refine ⟨?_, ?_, ?_, ?_, ?_⟩
  · norm_num [validate_timestamp, ruleWith, validate_timestamp_body, cleanEvent,
      now0, pyDiffSec]
  · norm_num [validate_confidence, ruleWith, validate_confidence_body, cleanEvent]
  · norm_num [validate_bounding_box, ruleWith, validate_bounding_box_body, cleanEvent]
  · norm_num [validate_event_consistency, ruleWith, validate_event_consistency_body,
      cleanEvent]
    decide
  · norm_num [validate_source_integrity, ruleWith, validate_source_integrity_body,
      cleanEvent, py_strip]
    decide

/-- The five rule results on `twoErrEvent` at `now0`: only
`source_integrity` fires, with two errors. -/
theorem rules_on_twoErrEvent :
    validate_timestamp twoErrEvent now0 = ⟨[], [], 4/5⟩ ∧
    validate_confidence twoErrEvent = ⟨[], [], 1/2⟩ ∧
    validate_bounding_box twoErrEvent = ⟨[], [], 3/5⟩ ∧
    validate_event_consistency twoErrEvent = ⟨[], [], 7/10⟩ ∧
    validate_source_integrity twoErrEvent =
      ⟨["Empty video source ID", "Empty camera ID"], [], 2/5⟩ := by
  refine ⟨?_, ?_, ?_, ?_, ?_⟩
  · norm_num [validate_timestamp, ruleWith, validate_timestamp_body, twoErrEvent,
      cleanEvent, now0, pyDiffSec]
  · norm_num [validate_confidence, ruleWith, validate_confidence_body, twoErrEvent,
      cleanEvent]
  · norm_num [validate_bounding_box, ruleWith, validate_bounding_box_body,
      twoErrEvent, cleanEvent]
  · norm_num [validate_event_consistency, ruleWith, validate_event_consistency_body,
      twoErrEvent, cleanEvent]
    decide
  · norm_num [validate_source_integrity, ruleWith, validate_source_integrity_body,
      twoErrEvent, cleanEvent, py_strip]
    decide

/-- C2 counterexample: `twoErrEvent` triggers two `source_integrity` errors
(severity 0.4) and nothing else; the claim's per-error formula predicts
`1 − 2·(0.4·0.2) = 0.84`, but the code charges the rule once and also
subtracts 0.3 for the (always failing) schema check, returning 0.62. -/
theorem claim2_counterexample :
    (validate_event twoErrEvent now0).score = 31/50 ∧
    claimed_score twoErrEvent now0 = 21/25 ∧
    (validate_event twoErrEvent now0).errors.count "Empty video source ID" = 1 ∧
    (validate_event twoErrEvent now0).errors.count "Empty camera ID" = 1 ∧
    (validate_event twoErrEvent now0).score ≠ claimed_score twoErrEvent now0 := by
  obtain ⟨h1, h2, h3, h4, h5⟩ := rules_on_twoErrEvent
  rw [validate_event_eq, claimed_score, h1, h2, h3, h4, h5]
  norm_num [penalty, schema_errors, schema_violations, twoErrEvent, cleanEvent]
  decide

/-- C2 (amended): the returned errors are the schema error followed by each
rule's errors in registration order, the warnings are the rules' warnings
in order, the score is 1.0 minus 0.3 for the always-failing schema check
minus `severity * 0.2` once per rule with at least one error and
`severity * 0.1` once per rule with at least one warning, clamped to ≥ 0,
and `is_valid` holds exactly when the combined error list is empty — which
never happens, as the schema check fails on every event. -/
theorem claim2_score_aggregation (e : VideoAnalyticsEvent) (now : PyDatetime) :
    (validate_event e now).errors =
        schema_errors e ++ (validate_timestamp e now).errors
          ++ (validate_confidence e).errors ++ (validate_bounding_box e).errors
          ++ (validate_event_consistency e).errors
          ++ (validate_source_integrity e).errors ∧
    (validate_event e now).warnings =
        (validate_timestamp e now).warnings ++ (validate_confidence e).warnings
          ++ (validate_bounding_box e).warnings
          ++ (validate_event_consistency e).warnings
          ++ (validate_source_integrity e).warnings ∧
    (validate_event e now).score =
        max 0 (1 - 3/10 - penalty (validate_timestamp e now)
          - penalty (validate_confidence e) - penalty (validate_bounding_box e)
          - penalty (validate_event_consistency e)
          - penalty (validate_source_integrity e)) ∧
    ((validate_event e now).is_valid = true ↔ (validate_event e now).errors = []) ∧
    (validate_event e now).is_valid = false := by
  refine ⟨?_, ?_, ?_, ?_, validate_event_never_valid e now⟩
  · rw [validate_event_eq]
  · rw [validate_event_eq]
  · rw [validate_event_eq]
  · rw [validate_event_eq]
    simp [List.isEmpty_iff]

/-- C5: the spec's "clean event scores 1.0 and is valid" property, which
the repository's own test `test_valid_event_validation` also asserts
(`is_valid` and `score > 0.8`), fails on the code: `event.dict()` leaves
`timestamp` as a `datetime` object where the JSON schema requires a
string, so even an issue-free event gets one schema error, `is_valid =
false` and score 0.7 — and no event is ever valid. -/
theorem claim5_clean_event_rejected :
    (validate_event cleanEvent now0).is_valid = false ∧
    (validate_event cleanEvent now0).score = 7/10 ∧
    (validate_event cleanEvent now0).errors =
      ["Schema validation failed: timestamp is not of type \x27string\x27"] ∧
    (validate_event cleanEvent now0).warnings = [] ∧
    ∀ e now, (validate_event e now).is_valid = false := by
  obtain ⟨h1, h2, h3, h4, h5⟩ := rules_on_cleanEvent
  rw [validate_event_eq, h1, h2, h3, h4, h5]
  refine ⟨?_, ?_, ?_, rfl, validate_event_never_valid⟩
  · decide
  · norm_num [penalty]
  · decide

/-- C10: validation is total — for any pre-rule outcome (including an
unexpected exception before the rule loop, which the outer `except`
converts to a single error with score 0 and `is_valid = false`) a
`ValidationResult` is returned and its score lies in `[0, 1]`. -/
theorem claim10_validation_total (pre : Except String Unit)
    (e : VideoAnalyticsEvent) (now : PyDatetime) :
    0 ≤ (validate_event_with pre validation_rules e now).score ∧
    (validate_event_with pre validation_rules e now).score ≤ 1 ∧
    (∀ m, pre = .error m →
      validate_event_with pre validation_rules e now =
        ⟨false, ["Unexpected validation error: " ++ m], [], 0⟩) ∧
    validate_event e now = validate_event_with (.ok ()) validation_rules e now := by
  refine ⟨?_, ?_, ?_, rfl⟩
  · cases pre with
    | error m => simp [validate_event_with]
    | ok u =>
      simp only [validate_event_with, validationParts_eq]
      exact le_max_left 0 _
  · cases pre with
    | error m => simp [validate_event_with]
    | ok u =>
      simp only [validate_event_with, validationParts_eq]
      have h1 := penalty_nonneg (validate_timestamp e now) (by rw [(severity_fixed e now).1]; norm_num)
      have h2 := penalty_nonneg (validate_confidence e) (by rw [(severity_fixed e now).2.1]; norm_num)
      have h3 := penalty_nonneg (validate_bounding_box e) (by rw [(severity_fixed e now).2.2.1]; norm_num)
      have h4 := penalty_nonneg (validate_event_consistency e) (by rw [(severity_fixed e now).2.2.2.1]; norm_num)
      have h5 := penalty_nonneg (validate_source_integrity e) (by rw [(severity_fixed e now).2.2.2.2]; norm_num)
      have : (1 : ℚ) - 3/10 - penalty (validate_timestamp e now)
          - penalty (validate_confidence e) - penalty (validate_bounding_box e)
          - penalty (validate_event_consistency e)
          - penalty (validate_source_integrity e) ≤ 1 := by linarith
      exact max_le (by norm_num) this
  · intro m hm
    subst hm
    rfl

/-- C10 witness: at a concrete pre-loop exception and event, the result is
the converted error with score 0, and the bounds hold. -/
theorem claim10_witness :
    validate_event_with (.error "boom") validation_rules cleanEvent now0 =
      ⟨false, ["Unexpected validation error: boom"], [], 0⟩ :=
  (claim10_validation_total (.error "boom") cleanEvent now0).2.2.1 "boom" rfl

/-- C1: every message that parses and constructs is dropped by the parse
stage with the "data quality failed" counter — validation never passes
(the schema check always fails on the serialized `datetime` timestamp), so
nothing is ever stamped, counted as success, or yielded.  Moreover the
stamping code itself is broken for events arriving without
`processing_metadata`: it stores a plain dict and then raises
`AttributeError` setting `processing_time` on it, so even if the gate
passed, such events would be dropped with `events_processing_error`. -/
theorem claim1_parse_stage_drops_everything :
    (∀ e now, parse_process (.ok e) now = ([], ["events_data_quality_failed"])) ∧
    stamp_metadata cleanEvent now0 =
      .error "\x27dict\x27 object has no attribute \x27processing_time\x27" ∧
    (∀ e now, e.processing_metadata = none →
      stamp_metadata e now =
        .error "\x27dict\x27 object has no attribute \x27processing_time\x27") := by
  refine ⟨?_, rfl, ?_⟩
  · intro e now
    simp [parse_process, validate_event_never_valid e now]
  · intro e now h
    simp [stamp_metadata, h]

/-- C1 witness: the concrete clean event has no `processing_metadata` and
is dropped. -/
theorem claim1_witness :
    parse_process (.ok cleanEvent) now0 = ([], ["events_data_quality_failed"]) ∧
    cleanEvent.processing_metadata = none ∧
    stamp_metadata cleanEvent now0 =
      .error "\x27dict\x27 object has no attribute \x27processing_time\x27" :=
  ⟨claim1_parse_stage_drops_everything.1 cleanEvent now0, rfl,
   claim1_parse_stage_drops_everything.2.2 cleanEvent now0 rfl⟩

/-- One loop iteration is additive in the accumulated errors, warnings and
score. -/
theorem applyRule_shift (e : VideoAnalyticsEvent) (now : PyDatetime)
    (E W : List String) (S : ℚ) (r : String × RuleFn) :
    applyRule e now (E, W, S) r =
      (E ++ (applyRule e now ([], [], 0) r).1,
       W ++ (applyRule e now ([], [], 0) r).2.1,
       S + (applyRule e now ([], [], 0) r).2.2) := by
  rcases hr : r.2 e now with m | res
  · simp [applyRule, hr]
    ring
  · simp only [applyRule, hr]
    by_cases he : res.errors.isEmpty <;> by_cases hw : res.warnings.isEmpty <;>
      simp_all [List.isEmpty_iff] <;> ring_nf

/-- The whole rule loop is additive in its starting accumulator. -/
theorem runRules_shift (rules : List (String × RuleFn)) (e : VideoAnalyticsEvent)
    (now : PyDatetime) (E W : List String) (S : ℚ) :
    runRules rules e now (E, W, S) =
      (E ++ (runRules rules e now ([], [], 0)).1,
       W ++ (runRules rules e now ([], [], 0)).2.1,
       S + (runRules rules e now ([], [], 0)).2.2) := by
  induction rules generalizing E W S with
  | nil => simp [runRules]
  | cons r rs ih =>
    simp only [runRules, List.foldl_cons] at *
    rw [applyRule_shift e now E W S r]
    rw [ih]
    conv_rhs => rw [applyRule_shift e now [] [] 0 r, ih]
    simp [List.append_assoc]
    ring

/-- C7: inserting a rule whose evaluation raises anywhere in the rule list
leaves the preceding accumulation intact, appends exactly one error naming
that rule, charges a flat 0.1 (not severity-weighted), and the remaining
rules still run, their errors and warnings appearing after it; the final
result clamps the summed score as usual. -/
theorem claim7_rule_fault_isolated (e : VideoAnalyticsEvent) (now : PyDatetime)
    (pre post : List (String × RuleFn)) (name msg : String) :
    validationParts (pre ++ (name, fun _ _ => Except.error msg) :: post) e now =
      ((validationParts pre e now).1 ++
         ("Validation rule \x27" ++ name ++ "\x27 failed: " ++ msg)
           :: (runRules post e now ([], [], 0)).1,
       (validationParts pre e now).2.1 ++ (runRules post e now ([], [], 0)).2.1,
       (validationParts pre e now).2.2 - 1/10 +
         (runRules post e now ([], [], 0)).2.2) ∧
    validate_event_with (.ok ())
        (pre ++ (name, fun _ _ => Except.error msg) :: post) e now =
      { is_valid :=
          (validationParts (pre ++ (name, fun _ _ => Except.error msg) :: post)
            e now).1.isEmpty,
        errors :=
          (validationParts (pre ++ (name, fun _ _ => Except.error msg) :: post)
            e now).1,
        warnings :=
          (validationParts (pre ++ (name, fun _ _ => Except.error msg) :: post)
            e now).2.1,
        score :=
          max 0 ((validationParts (pre ++ (name, fun _ _ => Except.error msg) :: post)
            e now).2.2) } := by
  constructor
  · show runRules _ e now _ = _
    rw [runRules, List.foldl_append, List.foldl_cons]
    have hfail : applyRule e now ((validationParts pre e now).1,
        (validationParts pre e now).2.1, (validationParts pre e now).2.2)
        (name, fun _ _ => Except.error msg) =
        ((validationParts pre e now).1 ++
          ["Validation rule \x27" ++ name ++ "\x27 failed: " ++ msg],
         (validationParts pre e now).2.1,
         (validationParts pre e now).2.2 - 1/10) := rfl
    have hpre : List.foldl (applyRule e now)
        (schema_errors e, [], if (schema_errors e).isEmpty then 1 else 1 - 3/10) pre =
        validationParts pre e now := rfl
    rw [hpre, show (validationParts pre e now) =
      ((validationParts pre e now).1, (validationParts pre e now).2.1,
        (validationParts pre e now).2.2) from rfl, hfail]
    rw [show (List.foldl (applyRule e now) _ post) =
      runRules post e now ((validationParts pre e now).1 ++
          ["Validation rule \x27" ++ name ++ "\x27 failed: " ++ msg],
        (validationParts pre e now).2.1,
        (validationParts pre e now).2.2 - 1/10) from rfl]
    rw [runRules_shift]
    simp [List.append_assoc]
  · simp only [validate_event_with]

/-- C8: the enrichment stage yields exactly one event for every input —
the enriched event (with the success counter) when the body returns, and
the incoming event (with the failure counter) when the body raises; the
stage as wired yields the enriched event. -/
theorem claim8_enrichment_never_drops
    (f : VideoAnalyticsEvent → Except String VideoAnalyticsEvent)
    (e : VideoAnalyticsEvent) :
    (enrich_process f e).1.length = 1 ∧
    (∀ e2, f e = .ok e2 → enrich_process f e = ([e2], ["events_enriched"])) ∧
    (∀ m, f e = .error m →
      enrich_process f e = ([e], ["events_enrichment_failed"])) ∧
    enrich_process (fun x => .ok (enrich_event x)) e =
      ([enrich_event e], ["events_enriched"]) := by
  refine ⟨?_, ?_, ?_, rfl⟩
  · rcases h : f e with m | e2 <;> simp [enrich_process, h]
  · intro e2 h
    simp [enrich_process, h]
  · intro m h
    simp [enrich_process, h]

/-- C8 witness: a raising enrichment still yields the (single) event. -/
theorem claim8_witness :
    enrich_process (fun _ => .error "boom") cleanEvent =
      ([cleanEvent], ["events_enrichment_failed"]) ∧
    (enrich_process (fun _ => .error "boom") cleanEvent).1.length = 1 :=
  ⟨(claim8_enrichment_never_drops (fun _ => .error "boom") cleanEvent).2.2.1
      "boom" rfl,
   (claim8_enrichment_never_drops (fun _ => .error "boom") cleanEvent).1⟩

/-- C4 counterexample: a `motion_detected` event with confidence 0.96 and
threshold 0.95 satisfies the claim's anomaly predicate (which includes
`motion_detected` in the detection family) but the code routes it to the
normal branch — its confidence test only accepts `person_detected` and
`vehicle_detected`. -/
theorem claim4_counterexample :
    (filter_process (19/20) motionHiEvent now0).1 =
      [⟨motionHiEvent, false, "normal", now0⟩] ∧
    claimed_is_anomaly (19/20) motionHiEvent = true ∧
    motionHiEvent.event_type = .motion_detected ∧
    motionHiEvent.data.confidence = some (24/25) := by
  have hnot : ¬((24:ℚ)/25 ≠ 0 ∧ (19:ℚ)/20 < 24/25 ∧
      (EventType.motion_detected = .person_detected ∨
        EventType.motion_detected = .vehicle_detected)) := by
    rintro ⟨-, -, h | h⟩ <;> exact absurd h (by decide)
  have hlt : (19:ℚ)/20 < 24/25 := by norm_num
  refine ⟨?_, ?_, rfl, rfl⟩
  · simp [filter_process, motionHiEvent, cleanEvent, decide_eq_false hnot]
  · simp [claimed_is_anomaly, motionHiEvent, cleanEvent, decide_eq_true hlt]

/-- C4 (amended): the classifier emits exactly one tagged record per event;
`is_anomaly` holds iff the type is `anomaly_detected`, or a confidence is
present, exceeds the (nonnegative) threshold and the type is
`person_detected` or `vehicle_detected` (the detection family does not
include `motion_detected`); the priority is "high" exactly on anomalies;
with threshold 0.95 a `person_detected` event at 0.96 goes high and at
0.80 goes normal, and `anomaly_detected` events are always anomalous. -/
theorem claim4_classification (θ : ℚ) (hθ : 0 ≤ θ) (e : VideoAnalyticsEvent)
    (now : PyDatetime) :
    (filter_process θ e now).1.length = 1 ∧
    (∀ o ∈ (filter_process θ e now).1,
      o.event = e ∧
      (o.is_anomaly = true ↔
        (e.event_type = .anomaly_detected ∨
          (∃ c, e.data.confidence = some c ∧ θ < c ∧
            (e.event_type = .person_detected ∨ e.event_type = .vehicle_detected)))) ∧
      o.processing_priority = (if o.is_anomaly then "high" else "normal")) ∧
    (filter_process (19/20) personHiEvent now0).1.map
      FilterOutput.processing_priority = ["high"] ∧
    (filter_process (19/20) personLoEvent now0).1.map
      FilterOutput.processing_priority = ["normal"] ∧
    (∀ e2 now2, e2.event_type = .anomaly_detected →
      ∀ o ∈ (filter_process θ e2 now2).1, o.is_anomaly = true) := by
  refine ⟨rfl, ?_, ?_, ?_, ?_⟩
  · intro o ho
    simp only [filter_process, List.mem_singleton] at ho
    subst ho
    refine ⟨rfl, ?_, rfl⟩
    by_cases ha : e.event_type = .anomaly_detected
    · simp [ha]
    · rcases hc : e.data.confidence with _ | c
      · simp [ha, hc]
      · simp only [ha, if_false, hc, decide_eq_true_eq]
        constructor
        · rintro ⟨-, hlt, hty⟩
          exact Or.inr ⟨c, rfl, hlt, hty⟩
        · rintro (h | ⟨c2, hc2, hlt, hty⟩)
          · exact h.elim
          · injection hc2 with hcc
            subst hcc
            exact ⟨ne_of_gt (hθ.trans_lt hlt), hlt, hty⟩
  · norm_num [filter_process, personHiEvent, cleanEvent]
  · norm_num [filter_process, personLoEvent, cleanEvent]
    decide
  · intro e2 now2 h2 o ho
    simp only [filter_process, h2, if_true, List.mem_singleton] at ho
    subst ho
    rfl

/-- C4 witness: the amended classification at the concrete threshold and
high-confidence person event. -/
theorem claim4_witness :
    (0:ℚ) ≤ 19/20 ∧ (filter_process (19/20) personHiEvent now0).1.length = 1 :=
  ⟨by norm_num,
   (claim4_classification (19/20) (by norm_num) personHiEvent now0).1⟩

/-- Counter-dict lookup after a bump: the bumped key gains one, every
other key is untouched. -/
theorem lookup_bump {α : Type} [DecidableEq α] (l : List (α × Nat)) (k t : α) :
    lookup_count (bump_assoc l k) t =
      lookup_count l t + (if k = t then 1 else 0) := by
  induction l with
  | nil => simp [bump_assoc, lookup_count]
  | cons p r ih =>
    obtain ⟨a, n⟩ := p
    by_cases hak : a = k
    · subst hak
      by_cases hat : a = t <;> simp [bump_assoc, lookup_count, hat]
    · by_cases hat : a = t
      · subst hat
        have hkt : ¬k = a := fun h => hak h.symm
        simp [bump_assoc, lookup_count, hak, hkt]
      · simp [bump_assoc, lookup_count, hak, hat, ih]

/-- The aggregation loop's confidence accumulator collects exactly the
present, non-zero confidences, in order, after whatever it started with. -/
theorem agg_step_confidences (events : List FilterOutput)
    (tc : List (EventType × Nat)) (cs : List ℚ) :
    (events.foldl agg_step (tc, cs)).2 = cs ++ collected_confidences events := by
  induction events generalizing tc cs with
  | nil => simp [collected_confidences]
  | cons ev evs ih =>
    rw [List.foldl_cons]
    rcases hc : ev.event.data.confidence with _ | c
    · rw [show agg_step (tc, cs) ev = (bump_assoc tc ev.event.event_type, cs) by
        simp [agg_step, hc]]
      rw [ih]
      simp [collected_confidences, List.filterMap_cons, hc]
    · by_cases h0 : c = 0
      · rw [show agg_step (tc, cs) ev = (bump_assoc tc ev.event.event_type, cs) by
          simp [agg_step, hc, h0]]
        rw [ih]
        simp [collected_confidences, List.filterMap_cons, hc, h0]
      · rw [show agg_step (tc, cs) ev =
            (bump_assoc tc ev.event.event_type, cs ++ [c]) by
          simp [agg_step, hc, h0]]
        rw [ih]
        simp [collected_confidences, List.filterMap_cons, hc, h0]

/-- The aggregation loop's per-type counter counts occurrences of each
event type. -/
theorem agg_step_type_counts (events : List FilterOutput)
    (tc : List (EventType × Nat)) (cs : List ℚ) (t : EventType) :
    lookup_count (events.foldl agg_step (tc, cs)).1 t =
      lookup_count tc t +
        (events.filter (fun o => decide (o.event.event_type = t))).length := by
  induction events generalizing tc cs with
  | nil => simp
  | cons ev evs ih =>
    rw [List.foldl_cons, show agg_step (tc, cs) ev =
      (bump_assoc tc ev.event.event_type, (agg_step (tc, cs) ev).2) from rfl]
    rw [ih, lookup_bump]
    by_cases ht : ev.event.event_type = t <;> simp [List.filter_cons, ht] <;> omega

/-- C3 counterexample: with confidences 0.0 and 1.0 present in the window,
the claim's mean over present values is 0.5, but the code's truthiness
test drops the 0.0 and it reports 1. -/
theorem claim3_counterexample :
    (windowed_aggregation "A" eventsZeroOne 0 60 100).1.map
      WindowAggregate.average_confidence = [1] ∧
    present_confidences eventsZeroOne = [0, 1] ∧
    (present_confidences eventsZeroOne).sum /
      ((present_confidences eventsZeroOne).length : ℚ) = 1/2 ∧
    (1 : ℚ) ≠ 1/2 := by
  refine ⟨?_, ?_, ?_, by norm_num⟩
  · norm_num [windowed_aggregation, agg_loop, agg_step, eventsZeroOne,
      mkClassified, cleanEvent]
  · simp [present_confidences, eventsZeroOne, mkClassified, cleanEvent]
  · simp [present_confidences, eventsZeroOne, mkClassified, cleanEvent] <;> norm_num

/-- C3 (amended): each closed window yields exactly one aggregate whose
`total_events` is the window's event count, whose `event_type_counts`
holds each type's occurrence count, and whose `average_confidence` and
`high_confidence_events` are computed over the present *and non-zero*
confidences — the mean is 0 when none are collected (no division by
zero), and the count is of collected values strictly above 0.9; on the
spec's example window the aggregate is (2, 0.9, 1). -/
theorem claim3_window_aggregation (key : String) (events : List FilterOutput)
    (wstart wend now : ℚ) :
    (windowed_aggregation key events wstart wend now).1.length = 1 ∧
    (∀ a ∈ (windowed_aggregation key events wstart wend now).1,
      a.source_id = key ∧ a.window_start = wstart ∧ a.window_end = wend ∧
      a.total_events = events.length ∧
      (∀ t, lookup_count a.event_type_counts t =
        (events.filter (fun o => decide (o.event.event_type = t))).length) ∧
      a.average_confidence =
        (if collected_confidences events = [] then 0
         else (collected_confidences events).sum /
           ((collected_confidences events).length : ℚ)) ∧
      a.high_confidence_events =
        ((collected_confidences events).filter
          (fun c => decide ((9:ℚ)/10 < c))).length) ∧
    (windowed_aggregation "A" eventsGood 0 60 100).1.map
      (fun a => (a.total_events, a.average_confidence, a.high_confidence_events)) =
      [(2, 9/10, 1)] := by
  refine ⟨rfl, ?_, ?_⟩
  · intro a ha
    have hcs : (agg_loop events).2 = collected_confidences events := by
      rw [agg_loop, agg_step_confidences]
      simp
    simp only [windowed_aggregation, List.mem_singleton] at ha
    subst ha
    refine ⟨rfl, rfl, rfl, rfl, ?_, ?_, ?_⟩
    · intro t
      show lookup_count (agg_loop events).1 t = _
      rw [agg_loop, agg_step_type_counts]
      simp [lookup_count]
    · show (if (agg_loop events).2.isEmpty then (0:ℚ) else _) = _
      rw [hcs]
      by_cases h : collected_confidences events = [] <;>
        simp [h, List.isEmpty_iff]
    · show ((agg_loop events).2.filter _).length = _
      rw [hcs]
  · norm_num [windowed_aggregation, agg_loop, agg_step, eventsGood,
      mkClassified, cleanEvent]

/-- C3 witness: the amended aggregation at the spec's concrete window. -/
theorem claim3_witness :
    (windowed_aggregation "A" eventsGood 0 60 100).1.length = 1 ∧
    (windowed_aggregation "A" eventsGood 0 60 100).1.map
      (fun a => (a.total_events, a.average_confidence, a.high_confidence_events)) =
      [(2, 9/10, 1)] :=
  ⟨(claim3_window_aggregation "A" eventsGood 0 60 100).1,
   (claim3_window_aggregation "A" eventsGood 0 60 100).2.2⟩

/-- Bumping a message list into a counter dict adds each message's
occurrence count to its entry. -/
theorem lookup_foldl_bump (msgs : List String) (l : List (String × Nat))
    (k : String) :
    lookup_count (msgs.foldl bump_assoc l) k =
      lookup_count l k + msgs.count k := by
  induction msgs generalizing l with
  | nil => simp
  | cons m ms ih =>
    rw [List.foldl_cons, ih, lookup_bump]
    by_cases hmk : m = k <;> simp [List.count_cons, hmk] <;> omega

/-- `record_all` appends one history record per call, in order. -/
theorem record_foldl_history (entries : List (ValidationResult × String × ℚ))
    (st : MonitorState) :
    (entries.foldl (fun st en => record_validation_result st en.1 en.2.1 en.2.2)
        st).quality_history =
      st.quality_history ++ entries.map mkRecord := by
  induction entries generalizing st with
  | nil => simp
  | cons en ens ih =>
    rw [List.foldl_cons, ih]
    simp [record_validation_result, mkRecord]

/-- The cumulative error counter of `record_all` counts each message's
occurrences across all recorded results, windowed or not. -/
theorem record_foldl_errors (entries : List (ValidationResult × String × ℚ))
    (st : MonitorState) (k : String) :
    lookup_count (entries.foldl
        (fun st en => record_validation_result st en.1 en.2.1 en.2.2)
        st).error_counts k =
      lookup_count st.error_counts k +
        (entries.map (fun en => en.1.errors.count k)).sum := by
  induction entries generalizing st with
  | nil => simp
  | cons en ens ih =>
    rw [List.foldl_cons, ih]
    simp [record_validation_result, lookup_foldl_bump]
    omega

/-- Same for the cumulative warning counter. -/
theorem record_foldl_warnings (entries : List (ValidationResult × String × ℚ))
    (st : MonitorState) (k : String) :
    lookup_count (entries.foldl
        (fun st en => record_validation_result st en.1 en.2.1 en.2.2)
        st).warning_counts k =
      lookup_count st.warning_counts k +
        (entries.map (fun en => en.1.warnings.count k)).sum := by
  induction entries generalizing st with
  | nil => simp
  | cons en ens ih =>
    rw [List.foldl_cons, ih]
    simp [record_validation_result, lookup_foldl_bump]
    omega

/-- Filtering a mapped list is mapping the filtered pullback. -/
theorem filter_map_comm {α β : Type} (f : α → β) (p : β → Bool) (l : List α) :
    (l.map f).filter p = (l.filter (fun a => p (f a))).map f := by
  induction l with
  | nil => rfl
  | cons a as ih =>
    by_cases h : p (f a) = true <;> simp [List.filter_cons, h, ih]

/-- Membership in a stable descending insertion. -/
theorem mem_insert_desc (x p : String × Nat) (l : List (String × Nat)) :
    p ∈ insert_desc x l → p = x ∨ p ∈ l := by
  induction l with
  | nil => simp [insert_desc]
  | cons y ys ih =>
    by_cases h : y.2 < x.2
    · simp [insert_desc, h] <;> tauto
    · simp only [insert_desc, if_neg h, List.mem_cons]
      rintro (hy | hp)
      · exact Or.inr (Or.inl hy)
      · rcases ih hp with h1 | h2
        · exact Or.inl h1
        · exact Or.inr (Or.inr h2)

/-- Membership in the stable descending sort. -/
theorem mem_sort_desc (p : String × Nat) (l : List (String × Nat)) :
    p ∈ sort_desc l → p ∈ l := by
  suffices h : ∀ acc, p ∈ l.foldl (fun acc x => insert_desc x acc) acc →
      p ∈ acc ∨ p ∈ l by
    intro hp
    rcases h [] hp with h1 | h2
    · cases h1
    · exact h2
  induction l with
  | nil => simp
  | cons x xs ih =>
    intro acc hp
    rw [List.foldl_cons] at hp
    rcases ih (insert_desc x acc) hp with h1 | h2
    · rcases mem_insert_desc x p acc h1 with h3 | h4
      · exact Or.inr (by simp [h3])
      · exact Or.inl h4
    · exact Or.inr (List.mem_cons_of_mem x h2)

/-- First-match lookup returns the stored count when keys are distinct. -/
theorem lookup_of_mem_nodup (l : List (String × Nat)) (p : String × Nat)
    (hm : p ∈ l) (hn : (l.map Prod.fst).Nodup) : lookup_count l p.1 = p.2 := by
  induction l with
  | nil => cases hm
  | cons a r ih =>
    rcases List.mem_cons.mp hm with hp | hp
    · subst hp
      simp [lookup_count]
    · have ha : a.1 ≠ p.1 := by
        intro h
        have hmem : p.1 ∈ r.map Prod.fst := List.mem_map_of_mem Prod.fst hp
        rw [← h] at hmem
        exact (List.nodup_cons.mp hn).1 hmem
      have hr := ih hp (List.nodup_cons.mp hn).2
      show (if a.1 = p.1 then a.2 else lookup_count r p.1) = p.2
      rw [if_neg ha, hr]

/-- The keys of a bumped counter dict: unchanged for a known key, the new
key appended otherwise. -/
theorem bump_keys (l : List (String × Nat)) (k : String) :
    (bump_assoc l k).map Prod.fst = l.map Prod.fst ∨
    ((bump_assoc l k).map Prod.fst = l.map Prod.fst ++ [k] ∧
      k ∉ l.map Prod.fst) := by
  induction l with
  | nil => simp [bump_assoc]
  | cons a r ih =>
    by_cases h : a.1 = k
    · subst h
      simp [bump_assoc]
    · rcases ih with h1 | ⟨h2, h3⟩
      · exact Or.inl (by simp [bump_assoc, h, h1])
      · refine Or.inr ⟨by simp [bump_assoc, h, h2], ?_⟩
        simp only [List.map_cons, List.mem_cons]
        rintro (hk | hk)
        · exact h hk.symm
        · exact h3 hk

/-- Bumping preserves distinctness of keys. -/
theorem bump_keys_nodup (l : List (String × Nat)) (k : String)
    (hn : (l.map Prod.fst).Nodup) : ((bump_assoc l k).map Prod.fst).Nodup := by
  rcases bump_keys l k with h | ⟨h, hk⟩
  · rw [h]; exact hn
  · rw [h]
    rw [List.nodup_append]
    exact ⟨hn, List.nodup_singleton k, by simpa using hk⟩

/-- Folding a message list into a counter dict preserves key distinctness. -/
theorem foldl_bump_nodup (msgs : List String) (l : List (String × Nat))
    (hn : (l.map Prod.fst).Nodup) :
    ((msgs.foldl bump_assoc l).map Prod.fst).Nodup := by
  induction msgs generalizing l with
  | nil => exact hn
  | cons m ms ih =>
    rw [List.foldl_cons]
    exact ih (bump_assoc l m) (bump_keys_nodup l m hn)

/-- `record_all` keeps both counter dicts' keys distinct. -/
theorem record_all_nodup (entries : List (ValidationResult × String × ℚ)) :
    (((record_all entries).error_counts.map Prod.fst).Nodup ∧
      ((record_all entries).warning_counts.map Prod.fst).Nodup) := by
  suffices h : ∀ st, (st.error_counts.map Prod.fst).Nodup →
      (st.warning_counts.map Prod.fst).Nodup →
      ((entries.foldl (fun st en => record_validation_result st en.1 en.2.1 en.2.2)
          st).error_counts.map Prod.fst).Nodup ∧
      ((entries.foldl (fun st en => record_validation_result st en.1 en.2.1 en.2.2)
          st).warning_counts.map Prod.fst).Nodup by
    exact h emptyMonitor (by simp [emptyMonitor]) (by simp [emptyMonitor])
  induction entries with
  | nil => exact fun st h1 h2 => ⟨h1, h2⟩
  | cons en ens ih =>
    intro st h1 h2
    rw [List.foldl_cons]
    exact ih _ (foldl_bump_nodup _ _ h1) (foldl_bump_nodup _ _ h2)

/-- C9 counterexample: the monitor recorded "E1" at t = 0 and "E2" at
t = 3600; querying a 60-minute window at t = 3660 covers only the second
record (one error, "E2"), yet `top_errors` still lists "E1" — the top-5
lists are computed from the cumulative counters over all history, not
from the trailing window as claimed. -/
theorem claim9_counterexample :
    (get_quality_metrics monitorTwo 60 3660).map QualityMetrics.top_errors =
      some [("E1", 1), ("E2", 1)] ∧
    (get_quality_metrics monitorTwo 60 3660).map QualityMetrics.total_errors =
      some 1 ∧
    (monitorTwo.quality_history.filter
      (fun r => decide ((3660:ℚ) - (60:ℚ) * 60 < r.timestamp))).map
        QualityRecord.error_count = [1] ∧
    some [("E1", (1:Nat)), ("E2", 1)] ≠ some [("E2", 1)] := by
  have h1 : ¬((3660:ℚ) - 60 * 60 < 0) := by norm_num
  have h2 : (3660:ℚ) - 60 * 60 < 3600 := by norm_num
  refine ⟨?_, ?_, ?_, by decide⟩ <;>
    norm_num [get_quality_metrics, monitorTwo, record_all,
      record_validation_result, emptyMonitor, resE1, resE2, bump_assoc,
      sort_desc, insert_desc, List.filter_cons, h1, h2] <;> decide

/-- C9 (amended): `get_quality_metrics` computes the event count, validity
rate, average score and total error/warning counts from the records in
the trailing window only, but the top-5 error and warning lists are drawn
from the cumulative counters: every listed pair carries a message's
occurrence count over all recorded results since monitor creation (ties
keep first-seen order via the stable sort). -/
theorem claim9_quality_metrics (entries : List (ValidationResult × String × ℚ))
    (wm : Nat) (now : ℚ) (hne : recent_entries entries wm now ≠ []) :
    ∃ m, get_quality_metrics (record_all entries) wm now = some m ∧
      m.total_events = (recent_entries entries wm now).length ∧
      m.valid_events = ((recent_entries entries wm now).filter
        (fun en => en.1.is_valid)).length ∧
      m.validity_rate = (((recent_entries entries wm now).filter
        (fun en => en.1.is_valid)).length : ℚ) /
          ((recent_entries entries wm now).length : ℚ) ∧
      m.average_quality_score = ((recent_entries entries wm now).map
        (fun en => en.1.score)).sum / ((recent_entries entries wm now).length : ℚ) ∧
      m.total_errors = ((recent_entries entries wm now).map
        (fun en => en.1.errors.length)).sum ∧
      m.total_warnings = ((recent_entries entries wm now).map
        (fun en => en.1.warnings.length)).sum ∧
      (∀ k, lookup_count (record_all entries).error_counts k =
        (entries.map (fun en => en.1.errors.count k)).sum) ∧
      (∀ p ∈ m.top_errors,
        lookup_count (record_all entries).error_counts p.1 = p.2) ∧
      (∀ p ∈ m.top_warnings,
        lookup_count (record_all entries).warning_counts p.1 = p.2) := by
  have hhist : (record_all entries).quality_history = entries.map mkRecord :=
    (record_foldl_history entries emptyMonitor).trans (by simp [emptyMonitor])
  have hrecent : (record_all entries).quality_history.filter
      (fun r => decide (now - (wm:ℚ) * 60 < r.timestamp)) =
      (recent_entries entries wm now).map mkRecord := by
    rw [hhist, filter_map_comm]
    rfl
  have hnemp : ((recent_entries entries wm now).map mkRecord).isEmpty = false := by
    cases h : (recent_entries entries wm now).map mkRecord with
    | nil =>
      rw [List.map_eq_nil_iff] at h
      exact absurd h hne
    | cons a l => rfl
  have herr : ∀ k, lookup_count (record_all entries).error_counts k =
      (entries.map (fun en => en.1.errors.count k)).sum := by
    intro k
    have h := record_foldl_errors entries emptyMonitor k
    simpa [emptyMonitor, record_all, lookup_count] using h
  have heq : get_quality_metrics (record_all entries) wm now =
      some
        { window_minutes := wm,
          total_events := ((recent_entries entries wm now).map mkRecord).length,
          valid_events := (((recent_entries entries wm now).map mkRecord).filter
            (fun r => r.is_valid)).length,
          validity_rate := ((((recent_entries entries wm now).map mkRecord).filter
            (fun r => r.is_valid)).length : ℚ) /
              (((recent_entries entries wm now).map mkRecord).length : ℚ),
          average_quality_score := (((recent_entries entries wm now).map
            mkRecord).map (fun r => r.quality_score)).sum /
              (((recent_entries entries wm now).map mkRecord).length : ℚ),
          total_errors := (((recent_entries entries wm now).map mkRecord).map
            (fun r => r.error_count)).sum,
          total_warnings := (((recent_entries entries wm now).map mkRecord).map
            (fun r => r.warning_count)).sum,
          top_errors := (sort_desc (record_all entries).error_counts).take 5,
          top_warnings := (sort_desc (record_all entries).warning_counts).take 5 } := by
    simp only [get_quality_metrics, hrecent, hnemp, Bool.false_eq_true, if_false]
  refine ⟨_, heq, ?_, ?_, ?_, ?_, ?_, ?_, herr, ?_, ?_⟩
  · simp
  · simp [filter_map_comm, mkRecord]
  · simp [filter_map_comm, mkRecord]
  · simp only [List.map_map, List.length_map]
    rfl
  · simp only [List.map_map, List.length_map]
    rfl
  · simp only [List.map_map, List.length_map]
    rfl
  · intro p hp
    simp only at hp
    have hmem : p ∈ (record_all entries).error_counts :=
      mem_sort_desc p _ (List.mem_of_mem_take hp)
    exact lookup_of_mem_nodup _ p hmem (record_all_nodup entries).1
  · intro p hp
    simp only at hp
    have hmem : p ∈ (record_all entries).warning_counts :=
      mem_sort_desc p _ (List.mem_of_mem_take hp)
    exact lookup_of_mem_nodup _ p hmem (record_all_nodup entries).2

/-- C9 witness: the amended metrics at a concrete recorded history. -/
theorem claim9_witness :
    ∃ m, get_quality_metrics (record_all [(resE2, "b", 3600)]) 60 3660 = some m := by
  obtain ⟨m, hm, -⟩ := claim9_quality_metrics [(resE2, "b", 3600)] 60 3660
    (by norm_num [recent_entries, List.filter_cons])
  exact ⟨m, hm⟩

/-- Successful sequencing decomposes into its two stages. -/
theorem pseq_eq_some {α β : Type} (p : List Char → Option (α × List Char))
    (q : α → List Char → Option (β × List Char)) (l : List Char) (b : β)
    (r : List Char) :
    pseq p q l = some (b, r) ↔
      ∃ a m, p l = some (a, m) ∧ q a m = some (b, r) := by
  unfold pseq
  cases h : p l with
  | none => simp
  | some am => cases am with
    | mk a m =>
      simp
      constructor
      · exact fun hq => ⟨a, m, ⟨rfl, rfl⟩, hq⟩
      · rintro ⟨a1, m1, ⟨rfl, rfl⟩, hq⟩
        exact hq

theorem extP_readDigit : ExtP readDigit := by
  intro l a r h ext
  cases l with
  | nil => cases h
  | cons c cs =>
    unfold readDigit at h ⊢
    by_cases hc : c.isDigit <;> simp [hc] at h ⊢
    exact ⟨h.1, by rw [h.2]⟩

theorem extP_expectChar (ch : Char) : ExtP (expectChar ch) := by
  intro l a r h ext
  cases l with
  | nil => cases h
  | cons c cs =>
    unfold expectChar at h ⊢
    by_cases hc : c = ch <;> simp [hc] at h ⊢
    rw [h]

theorem extP_preturn {α : Type} (a : α) : ExtP (preturn a) := by
  intro l x r h ext
  unfold preturn at h ⊢
  obtain ⟨rfl, rfl⟩ := Prod.mk.injEq .. ▸ Option.some.inj h
  rfl

theorem extP_pguard (b : Bool) : ExtP (pguard b) := by
  intro l x r h ext
  unfold pguard at h ⊢
  cases b with
  | false => cases h
  | true =>
    simp at h ⊢
    rw [h]

theorem extP_pseq {α β : Type} (p : List Char → Option (α × List Char))
    (q : α → List Char → Option (β × List Char))
    (hp : ExtP p) (hq : ∀ a, ExtP (q a)) : ExtP (pseq p q) := by
  intro l b r h ext
  obtain ⟨a, m, h1, h2⟩ := (pseq_eq_some p q l b r).mp h
  exact (pseq_eq_some p q (l ++ ext) b (r ++ ext)).mpr
    ⟨a, m ++ ext, hp l a m h1 ext, hq a m b r h2 ext⟩

theorem extP_read2 : ExtP read2 :=
  extP_pseq _ _ extP_readDigit fun _ =>
    extP_pseq _ _ extP_readDigit fun _ => extP_preturn _

theorem extP_read4 : ExtP read4 :=
  extP_pseq _ _ extP_read2 fun _ =>
    extP_pseq _ _ extP_read2 fun _ => extP_preturn _

theorem extP_readDate : ExtP readDate :=
  extP_pseq _ _ extP_read4 fun _ =>
    extP_pseq _ _ (extP_expectChar '-') fun _ =>
      extP_pseq _ _ extP_read2 fun _ =>
        extP_pseq _ _ (extP_expectChar '-') fun _ =>
          extP_pseq _ _ extP_read2 fun _ =>
            extP_pseq _ _ (extP_pguard _) fun _ => extP_preturn _

theorem lenP_pseq {α β : Type} (p : List Char → Option (α × List Char))
    (q : α → List Char → Option (β × List Char)) (n m : Nat)
    (hp : LenP p n) (hq : ∀ a, LenP (q a) m) : LenP (pseq p q) (n + m) := by
  intro l b r h
  obtain ⟨a, mid, h1, h2⟩ := (pseq_eq_some p q l b r).mp h
  have e1 := hp l a mid h1
  have e2 := hq a mid b r h2
  omega

theorem lenP_readDigit : LenP readDigit 1 := by
  intro l a r h
  cases l with
  | nil => cases h
  | cons c cs =>
    unfold readDigit at h
    by_cases hc : c.isDigit <;> simp [hc] at h
    simp [← h.2] <;> omega

theorem lenP_expectChar (ch : Char) : LenP (expectChar ch) 1 := by
  intro l a r h
  cases l with
  | nil => cases h
  | cons c cs =>
    unfold expectChar at h
    by_cases hc : c = ch <;> simp [hc] at h
    simp [← h] <;> omega

theorem lenP_preturn {α : Type} (a : α) : LenP (preturn a) 0 := by
  intro l x r h
  unfold preturn at h
  obtain ⟨-, rfl⟩ := Prod.mk.injEq .. ▸ Option.some.inj h
  omega

theorem lenP_pguard (b : Bool) : LenP (pguard b) 0 := by
  intro l x r h
  unfold pguard at h
  cases b with
  | false => cases h
  | true =>
    simp at h
    simp [h] <;> omega

theorem lenP_read2 : LenP read2 2 :=
  lenP_pseq _ _ 1 1 lenP_readDigit fun _ =>
    lenP_pseq _ _ 1 0 lenP_readDigit fun _ => lenP_preturn _

theorem lenP_read4 : LenP read4 4 :=
  lenP_pseq _ _ 2 2 lenP_read2 fun _ =>
    lenP_pseq _ _ 2 0 lenP_read2 fun _ => lenP_preturn _

theorem lenP_readDate : LenP readDate 10 :=
  lenP_pseq _ _ 4 6 lenP_read4 fun _ =>
    lenP_pseq _ _ 1 5 (lenP_expectChar '-') fun _ =>
      lenP_pseq _ _ 2 3 lenP_read2 fun _ =>
        lenP_pseq _ _ 1 2 (lenP_expectChar '-') fun _ =>
          lenP_pseq _ _ 2 0 lenP_read2 fun _ =>
            lenP_pseq _ _ 0 0 (lenP_pguard _) fun _ => lenP_preturn _

theorem replaceZ_append (a b : List Char) :
    replaceZ (a ++ b) = replaceZ a ++ replaceZ b := by
  induction a with
  | nil => rfl
  | cons c cs ih =>
    by_cases hc : c = 'Z' <;> simp [replaceZ, hc, ih]

theorem replaceZ_of_not_mem (l : List Char) (h : 'Z' ∉ l) : replaceZ l = l := by
  induction l with
  | nil => rfl
  | cons c cs ih =>
    have hc : ¬c = 'Z' := fun hq => h (hq ▸ List.mem_cons_self c cs)
    simp only [replaceZ, if_neg hc]
    rw [ih (fun hm => h (List.mem_cons_of_mem c hm))]

/-- The optional-seconds reader: a fully-consuming parse is stable under
appending an offset, which cannot be mistaken for a seconds field. -/
theorem readSecondsOpt_plus (l : List Char) (s : Nat)
    (h : readSecondsOpt l = some (s, [])) (ext : List Char) :
    readSecondsOpt (l ++ '+' :: ext) = some (s, '+' :: ext) := by
  cases l with
  | nil =>
    unfold readSecondsOpt at h
    simp at h
    unfold readSecondsOpt
    simp [h.symm]
  | cons c r =>
    by_cases hc : c = ':'
    · subst hc
      unfold readSecondsOpt at h ⊢
      simp only [if_pos rfl, List.cons_append] at h ⊢
      exact extP_read2 r s [] h ('+' :: ext)
    · unfold readSecondsOpt at h
      simp only [if_neg hc] at h
      cases h

theorem preturn_inv {α : Type} (a : α) (l : List Char) (x : α) (r : List Char)
    (h : preturn a l = some (x, r)) : x = a ∧ r = l := by
  unfold preturn at h
  have := Option.some.inj h
  exact ⟨(congrArg Prod.fst this).symm, (congrArg Prod.snd this).symm⟩

theorem pguard_inv (b : Bool) (l : List Char) (x : Unit) (r : List Char)
    (h : pguard b l = some (x, r)) : b = true ∧ r = l := by
  unfold pguard at h
  cases b with
  | false => cases h
  | true => exact ⟨rfl, (congrArg Prod.snd (Option.some.inj h)).symm⟩

/-- A fully-consuming time parse is stable under appending an offset. -/
theorem readTime_plus (tr : List Char) (v : Nat × Nat × Nat)
    (h : readTime tr = some (v, [])) (ext : List Char) :
    readTime (tr ++ '+' :: ext) = some (v, '+' :: ext) := by
  unfold readTime at h ⊢
  obtain ⟨hh, r1, hh1, h⟩ := (pseq_eq_some _ _ _ _ _).mp h
  obtain ⟨u1, r2, hc1, h⟩ := (pseq_eq_some _ _ _ _ _).mp h
  obtain ⟨mi, r3, hmi, h⟩ := (pseq_eq_some _ _ _ _ _).mp h
  obtain ⟨sec, r4, hsec, h⟩ := (pseq_eq_some _ _ _ _ _).mp h
  obtain ⟨u2, r5, hg, hret⟩ := (pseq_eq_some _ _ _ _ _).mp h
  obtain ⟨hguard, rfl⟩ := pguard_inv _ _ _ _ hg
  obtain ⟨rfl, hr4⟩ := preturn_inv _ _ _ _ hret
  subst hr4
  refine (pseq_eq_some _ _ _ _ _).mpr
    ⟨hh, r1 ++ '+' :: ext, extP_read2 _ _ _ hh1 _, ?_⟩
  refine (pseq_eq_some _ _ _ _ _).mpr
    ⟨u1, r2 ++ '+' :: ext, extP_expectChar ':' _ _ _ hc1 _, ?_⟩
  refine (pseq_eq_some _ _ _ _ _).mpr
    ⟨mi, r3 ++ '+' :: ext, extP_read2 _ _ _ hmi _, ?_⟩
  refine (pseq_eq_some _ _ _ _ _).mpr
    ⟨sec, '+' :: ext, readSecondsOpt_plus _ _ hsec _, ?_⟩
  refine (pseq_eq_some _ _ _ _ _).mpr ⟨u2, '+' :: ext, ?_, rfl⟩
  unfold pguard
  rw [hguard]
  rfl

theorem readOffsetTail_some (sign : Int) (l : List Char) (tz : Option Int)
    (r : List Char) (h : readOffsetTail sign l = some (tz, r)) :
    ∃ v, tz = some v := by
  unfold readOffsetTail at h
  obtain ⟨_, _, _, h⟩ := (pseq_eq_some _ _ _ _ _).mp h
  obtain ⟨_, _, _, h⟩ := (pseq_eq_some _ _ _ _ _).mp h
  obtain ⟨_, _, _, h⟩ := (pseq_eq_some _ _ _ _ _).mp h
  obtain ⟨_, _, _, h⟩ := (pseq_eq_some _ _ _ _ _).mp h
  obtain ⟨htz, -⟩ := preturn_inv _ _ _ _ h
  exact ⟨_, htz⟩

/-- A successful offset parse either consumed nothing and found no offset,
or found one. -/
theorem readTzOpt_shape (l : List Char) (tz : Option Int) (r : List Char)
    (h : readTzOpt l = some (tz, r)) : (tz = none ∧ r = l) ∨ ∃ v, tz = some v := by
  cases l with
  | nil =>
    unfold readTzOpt at h
    have := Option.some.inj h
    exact Or.inl ⟨(congrArg Prod.fst this).symm, (congrArg Prod.snd this).symm⟩
  | cons c cs =>
    simp only [readTzOpt] at h
    by_cases hp : c = '+'
    · rw [if_pos hp] at h
      exact Or.inr (readOffsetTail_some _ _ _ _ h)
    · rw [if_neg hp] at h
      by_cases hm : c = '-'
      · rw [if_pos hm] at h
        exact Or.inr (readOffsetTail_some _ _ _ _ h)
      · rw [if_neg hm] at h
        have := Option.some.inj h
        exact Or.inl ⟨(congrArg Prod.fst this).symm, (congrArg Prod.snd this).symm⟩

/-- Appending `+00:00` to a string whose bare parse succeeded, was naive
and had a time part yields the same instant as a UTC-aware value. -/
theorem fromisoformat_offset (l : List Char) (t : PyDatetime)
    (h : fromisoformat l = some t) (h2 : t.tzMinutes = none)
    (h3 : 10 < l.length) :
    fromisoformat (l ++ '+' :: '0' :: '0' :: ':' :: '0' :: '0' :: []) =
      some { t with tzMinutes := some 0 } := by
  unfold fromisoformat at h
  cases hd : readDate l with
  | none => rw [hd] at h; cases h
  | some pr =>
    obtain ⟨⟨y, mo, dy⟩, rest⟩ := pr
    rw [hd] at h
    cases rest with
    | nil =>
      have hlen := lenP_readDate l _ _ hd
      simp at hlen
      omega
    | cons sep tr =>
      simp only at h
      cases ht : readTime tr with
      | none => rw [ht] at h; cases h
      | some prt =>
        obtain ⟨⟨hh, mi, sec⟩, r2⟩ := prt
        rw [ht] at h
        simp only at h
        cases htz : readTzOpt r2 with
        | none => rw [htz] at h; cases h
        | some prz =>
          obtain ⟨tz, r3⟩ := prz
          rw [htz] at h
          simp only at h
          cases hr3 : r3 with
          | cons a as =>
            rw [hr3] at h
            simp at h
          | nil =>
            rw [hr3] at h
            simp at h
            obtain rfl := h.symm
            have htzn : tz = none := h2
            subst htzn
            rw [hr3] at htz
            have hr2 : r2 = [] := by
              rcases readTzOpt_shape r2 none [] htz with ⟨-, hr⟩ | ⟨v, hv⟩
              · exact hr.symm
              · cases hv
            subst hr2
            have hdext := extP_readDate l _ _ hd
              ('+' :: '0' :: '0' :: ':' :: '0' :: '0' :: [])
            have htext := readTime_plus tr (hh, mi, sec) ht
              ('0' :: '0' :: ':' :: '0' :: '0' :: [])
            unfold fromisoformat
            rw [hdext]
            simp only [List.cons_append]
            rw [htext]
            rfl

/-- C6 counterexample: parsing an RFC3339 timestamp with a trailing "Z"
yields a timezone-aware datetime (UTC offset 0) while the same instant
without the "Z" yields a naive datetime — equal wall-clock fields, but
not the same value.  A string matching neither form fails, so pydantic
construction fails. -/
theorem claim6_counterexample :
    parse_timestamp "2023-12-01T10:30:00Z" =
      some ⟨2023, 12, 1, 10, 30, 0, some 0⟩ ∧
    parse_timestamp "2023-12-01T10:30:00" =
      some ⟨2023, 12, 1, 10, 30, 0, none⟩ ∧
    (⟨2023, 12, 1, 10, 30, 0, some 0⟩ : PyDatetime) ≠
      ⟨2023, 12, 1, 10, 30, 0, none⟩ ∧
    parse_timestamp "not-a-timestamp" = none := by
  decide

/-- C6 (amended): for every RFC3339 date-time string that parses bare to a
naive datetime (no "Z" anywhere, and with a time part), appending "Z"
also parses — to the datetime with the same civil fields but carrying UTC
offset 0 — so the two accepted forms agree on the wall clock yet produce
different values (aware vs naive, not the same internal instant value);
and a string matching neither form fails construction. -/
theorem claim6_timestamp_parsing (s : String) (t : PyDatetime)
    (h1 : fromisoformat s.data = some t) (h2 : t.tzMinutes = none)
    (h3 : 10 < s.data.length) (h4 : 'Z' ∉ s.data) :
    parse_timestamp s = some t ∧
    parse_timestamp (s ++ "Z") = some { t with tzMinutes := some 0 } ∧
    t ≠ { t with tzMinutes := some 0 } ∧
    parse_timestamp "not-a-timestamp" = none := by
  have hrz : replaceZ s.data = s.data := replaceZ_of_not_mem _ h4
  refine ⟨?_, ?_, ?_, by decide⟩
  · unfold parse_timestamp
    rw [hrz, h1]
  · unfold parse_timestamp
    rw [show (s ++ "Z").data = s.data ++ ['Z'] from rfl]
    rw [replaceZ_append, hrz]
    rw [show replaceZ ['Z'] = '+' :: '0' :: '0' :: ':' :: '0' :: '0' :: [] from rfl]
    rw [fromisoformat_offset s.data t h1 h2 h3]
  · intro heq
    have hq := congrArg PyDatetime.tzMinutes heq
    rw [h2] at hq
    cases hq

/-- C6 witness: the amended statement at the concrete timestamp. -/
theorem claim6_witness :
    parse_timestamp "2023-12-01T10:30:00" =
      some ⟨2023, 12, 1, 10, 30, 0, none⟩ ∧
    parse_timestamp ("2023-12-01T10:30:00" ++ "Z") =
      some ⟨2023, 12, 1, 10, 30, 0, some 0⟩ :=
  have h := claim6_timestamp_parsing "2023-12-01T10:30:00"
    ⟨2023, 12, 1, 10, 30, 0, none⟩ (by decide) rfl (by decide) (by decide)
  ⟨h.1, h.2.1⟩

end VAP

